import Mathlib

/-! Transaction and refund lifecycle managers.

A shallow embedding of `transaction_manager.go` and `refunds_manager.go`
(package `transaction_management`).  The managers talk to a relational store
through `database/sql`; the store, the clock (`time.Now`) and the identifier
generator (`uuid.New`) are explicit inputs of the model:

* the committed store is a pair of row lists (`DB`);
* a unit of work (`Tx`) holds a working copy that becomes the committed store
  only on `Commit`;
* every error branch of the source has a fault input that can trigger it, and
  so has the end of a row iteration that `rows.Next` reports by returning false;
* `Env.clock k` is the `k`-th reading of the wall clock, `Env.now k` that
  reading as the store keeps it, and `Env.uuid k` the `k`-th generated
  identifier; `World` counts how many were taken so far.
-/

namespace TransactionManagement

/-- A wall-clock instant as returned by `time.Now()` (nanoseconds). -/
abbrev Time := Nat

/-- Go `float64`, carried as its IEEE-754 bit pattern.  The managers only copy
amounts, they never compute with them. -/
abbrev Float64 := Nat

/-- Go `error` values built by `fmt.Errorf`: the formatted message. -/
abbrev GoError := String

/-- Transaction represents a payment transaction. -/
structure Transaction where
  ID : String
  UserID : String
  Amount : Float64
  Currency : String
  Status : String
  CreatedAt : Time
  LastModifiedAt : Time
  deriving DecidableEq, Repr

/-- Refund represents a refund for a transaction. -/
structure Refund where
  ID : String
  TransactionID : String
  UserID : String
  Amount : Float64
  Status : String
  CreatedAt : Time
  LastModifiedAt : Time
  deriving DecidableEq, Repr

/-- Errors coming back from `database/sql`: the sentinel `sql.ErrNoRows`, or any
other driver error with its message. -/
inductive SqlError where
  | ErrNoRows
  | other (msg : String)
  deriving DecidableEq, Repr

/-- The `Error()` text of a driver error, as `%v` prints it. -/
def SqlError.Error : SqlError → String
  | .ErrNoRows => "sql: no rows in result set"
  | .other msg => msg

/-- Modelled from the spec: the table declarations are not part of the source.
The persisted schema has two relations, `transactions` and `refunds`, each with
`id` as primary key.  Rows are kept in insertion order. -/
structure DB where
  transactions : List Transaction
  refunds : List Refund
  deriving DecidableEq, Repr

/-- The empty store. -/
def DB.empty : DB := ⟨[], []⟩

/-- The six statements the managers send through `tx.Exec`. -/
inductive Stmt where
  | insertTransaction (row : Transaction)
  | updateTransactionStatus (status : String) (lastModifiedAt : Time) (id : String)
  | deleteTransaction (id : String)
  | insertRefund (row : Refund)
  | updateRefundStatus (status : String) (lastModifiedAt : Time) (id : String)
  | deleteRefund (id : String)
  deriving DecidableEq, Repr

/-- Modelled from the spec: effect of one statement on the store under the
schema of the spec (`id` primary key on both relations; `fk` tells whether
`refunds.transaction_id` is declared as an enforced foreign key to
`transactions.id`, which the spec leaves open).  A constraint violation is
reported as a driver error and changes nothing.  The parameters arrive already
converted to the column types, see `Stmt.asStored` and `Tx.Exec`. -/
def Stmt.apply (fk : Bool) (db : DB) : Stmt → Except SqlError DB
  | .insertTransaction row =>
    if ∃ r ∈ db.transactions, r.ID = row.ID then
      .error (.other "pq: duplicate key value violates unique constraint")
    else
      .ok { db with transactions := db.transactions ++ [row] }
  | .updateTransactionStatus status lastModifiedAt id =>
    .ok { db with transactions := db.transactions.map fun r =>
            if r.ID = id then { r with Status := status, LastModifiedAt := lastModifiedAt } else r }
  | .deleteTransaction id =>
    if fk = true ∧ (∃ r ∈ db.transactions, r.ID = id) ∧ (∃ r ∈ db.refunds, r.TransactionID = id) then
      .error (.other "pq: update or delete violates foreign key constraint")
    else
      .ok { db with transactions := db.transactions.filter fun r => r.ID ≠ id }
  | .insertRefund row =>
    if ∃ r ∈ db.refunds, r.ID = row.ID then
      .error (.other "pq: duplicate key value violates unique constraint")
    else if fk = true ∧ ¬ (∃ t ∈ db.transactions, t.ID = row.TransactionID) then
      .error (.other "pq: insert or update violates foreign key constraint")
    else
      .ok { db with refunds := db.refunds ++ [row] }
  | .updateRefundStatus status lastModifiedAt id =>
    .ok { db with refunds := db.refunds.map fun r =>
            if r.ID = id then { r with Status := status, LastModifiedAt := lastModifiedAt } else r }
  | .deleteRefund id =>
    .ok { db with refunds := db.refunds.filter fun r => r.ID ≠ id }

/-- Modelled from the spec: a transaction row as the store keeps it.  The
timestamp columns hold values at the precision of the store (`storeTime`, for
the PostgreSQL store the source opens: microseconds), so a value read back may
differ from the value written by clock precision. -/
def Transaction.asStored (storeTime : Time → Time) (r : Transaction) : Transaction :=
  { r with CreatedAt := storeTime r.CreatedAt, LastModifiedAt := storeTime r.LastModifiedAt }

/-- Modelled from the spec: a refund row as the store keeps it, its timestamps
at the precision of the store. -/
def Refund.asStored (storeTime : Time → Time) (r : Refund) : Refund :=
  { r with CreatedAt := storeTime r.CreatedAt, LastModifiedAt := storeTime r.LastModifiedAt }

/-- Modelled from the spec: the statement with its parameters converted to the
column types, which for the timestamps means the precision of the store. -/
def Stmt.asStored (storeTime : Time → Time) : Stmt → Stmt
  | .insertTransaction row => .insertTransaction (row.asStored storeTime)
  | .updateTransactionStatus status lastModifiedAt id =>
    .updateTransactionStatus status (storeTime lastModifiedAt) id
  | .deleteTransaction id => .deleteTransaction id
  | .insertRefund row => .insertRefund (row.asStored storeTime)
  | .updateRefundStatus status lastModifiedAt id =>
    .updateRefundStatus status (storeTime lastModifiedAt) id
  | .deleteRefund id => .deleteRefund id

/-- An open unit of work (`*sql.Tx`): the working copy its statements act on. -/
structure Tx where
  pending : DB
  deriving DecidableEq, Repr

/-- What can go wrong at the store during one mutating call: a driver error at
`db.Begin`, at `tx.Exec` or at `tx.Commit`. -/
structure Faults where
  onBegin : Option String
  onExec : Option String
  onCommit : Option String
  deriving DecidableEq, Repr

/-- The store answers every step. -/
def Faults.none : Faults := ⟨Option.none, Option.none, Option.none⟩

/-- Opens a unit of work on the committed store (`db.Begin`). -/
def DB.Begin (db : DB) (fault : Option String) : Except SqlError Tx :=
  match fault with
  | some e => .error (.other e)
  | Option.none => .ok ⟨db⟩

/-- Runs one statement inside the unit of work (`tx.Exec`): the store converts
the parameters to the column types and applies the statement to the working
copy. -/
def Tx.Exec (tx : Tx) (fk : Bool) (storeTime : Time → Time) (fault : Option String)
    (stmt : Stmt) : Except SqlError Tx :=
  match fault with
  | some e => .error (.other e)
  | Option.none =>
    match (stmt.asStored storeTime).apply fk tx.pending with
    | .error e => .error e
    | .ok db => .ok ⟨db⟩

/-- Commits the unit of work (`tx.Commit`): on success the working copy becomes
the committed store, on failure the committed store stays as it was. -/
def Tx.Commit (tx : Tx) (fault : Option String) (committed : DB) : Except SqlError Unit × DB :=
  match fault with
  | some e => (.error (.other e), committed)
  | Option.none => (.ok (), tx.pending)

/-- Abandons the unit of work (`tx.Rollback`): the working copy is dropped. -/
def Tx.Rollback (_tx : Tx) (committed : DB) : DB := committed

/-- The environment of the managers: `uuid k` is the `k`-th identifier
`uuid.New()` hands out, `clock k` the `k`-th reading of `time.Now()` (the
wall-clock reading, on which nothing is assumed), `storeTime` the precision at
which the store keeps a timestamp, and `foreignKeys` the schema option of the
store. -/
structure Env where
  uuid : Nat → String
  clock : Nat → Time
  storeTime : Time → Time
  foreignKeys : Bool

/-- The `k`-th reading of `time.Now()` as it is written to the store. -/
def Env.now (env : Env) (k : Nat) : Time := env.storeTime (env.clock k)

/-- The state the managers act on: the committed store and how many
identifiers and clock readings have been taken so far. -/
structure World where
  db : DB
  uuidCalls : Nat
  clockReads : Nat
  deriving DecidableEq, Repr

/-- The function `generateUUID` generates a unique identifier for transactions. -/
def generateUUID (env : Env) (w : World) : String × World :=
  (env.uuid w.uuidCalls, { w with uuidCalls := w.uuidCalls + 1 })

/-- One call of `time.Now()`. -/
def timeNow (env : Env) (w : World) : Time × World :=
  (env.clock w.clockReads, { w with clockReads := w.clockReads + 1 })

/-- CreateTransaction initializes a new transaction. -/
def CreateTransaction (env : Env) (f : Faults) (w : World)
    (userID : String) (amount : Float64) (currency : String) :
    Except GoError Transaction × World :=
  match w.db.Begin f.onBegin with
  | .error err => (.error ("failed to begin transaction: " ++ err.Error), w)
  | .ok tx =>
    let (id, w1) := generateUUID env w
    let (createdAt, w2) := timeNow env w1
    let (lastModifiedAt, w3) := timeNow env w2
    let transaction : Transaction :=
      { ID := id, UserID := userID, Amount := amount, Currency := currency,
        Status := "PENDING", CreatedAt := createdAt, LastModifiedAt := lastModifiedAt }
    match tx.Exec env.foreignKeys env.storeTime f.onExec (.insertTransaction transaction) with
    | .error err =>
      (.error ("failed to insert transaction: " ++ err.Error), { w3 with db := tx.Rollback w3.db })
    | .ok tx1 =>
      match tx1.Commit f.onCommit w3.db with
      | (.error err, db1) =>
        (.error ("failed to commit transaction: " ++ err.Error), { w3 with db := db1 })
      | (.ok _, db1) => (.ok transaction, { w3 with db := db1 })

/-- UpdateTransactionStatus updates the status of a transaction. -/
def UpdateTransactionStatus (env : Env) (f : Faults) (w : World)
    (transactionID status : String) : Except GoError Unit × World :=
  match w.db.Begin f.onBegin with
  | .error err => (.error ("failed to begin transaction: " ++ err.Error), w)
  | .ok tx =>
    let (now, w1) := timeNow env w
    match tx.Exec env.foreignKeys env.storeTime f.onExec (.updateTransactionStatus status now transactionID) with
    | .error err =>
      (.error ("failed to update transaction status: " ++ err.Error),
        { w1 with db := tx.Rollback w1.db })
    | .ok tx1 =>
      match tx1.Commit f.onCommit w1.db with
      | (.error err, db1) =>
        (.error ("failed to commit transaction: " ++ err.Error), { w1 with db := db1 })
      | (.ok _, db1) => (.ok (), { w1 with db := db1 })

/-- The row `QueryRow(...).Scan` reads for `SELECT ... FROM transactions WHERE
id = $1`: the first matching row, `sql.ErrNoRows` when there is none, or the
driver error when the query itself failed. -/
def DB.QueryRowTransaction (db : DB) (fault : Option String) (id : String) :
    Except SqlError Transaction :=
  match fault with
  | some e => .error (.other e)
  | Option.none =>
    match db.transactions.find? (fun r => r.ID = id) with
    | Option.none => .error .ErrNoRows
    | some r => .ok r

/-- GetTransaction retrieves a transaction by its ID. -/
def GetTransaction (db : DB) (fault : Option String) (transactionID : String) :
    Except GoError Transaction :=
  match db.QueryRowTransaction fault transactionID with
  | .error err =>
    if err = SqlError.ErrNoRows then
      .error ("transaction not found: " ++ err.Error)
    else
      .error ("failed to get transaction: " ++ err.Error)
  | .ok transaction => .ok transaction

/-- DeleteTransaction deletes a transaction by its ID. -/
def DeleteTransaction (env : Env) (f : Faults) (w : World)
    (transactionID : String) : Except GoError Unit × World :=
  match w.db.Begin f.onBegin with
  | .error err => (.error ("failed to begin transaction: " ++ err.Error), w)
  | .ok tx =>
    match tx.Exec env.foreignKeys env.storeTime f.onExec (.deleteTransaction transactionID) with
    | .error err =>
      (.error ("failed to delete transaction: " ++ err.Error), { w with db := tx.Rollback w.db })
    | .ok tx1 =>
      match tx1.Commit f.onCommit w.db with
      | (.error err, db1) =>
        (.error ("failed to commit transaction: " ++ err.Error), { w with db := db1 })
      | (.ok _, db1) => (.ok (), { w with db := db1 })

/-- CreateRefund initiates a new refund for a given transaction. -/
def CreateRefund (env : Env) (f : Faults) (w : World)
    (transactionID userID : String) (amount : Float64) :
    Except GoError Refund × World :=
  match w.db.Begin f.onBegin with
  | .error err => (.error ("failed to begin transaction: " ++ err.Error), w)
  | .ok tx =>
    let (id, w1) := generateUUID env w
    let (createdAt, w2) := timeNow env w1
    let (lastModifiedAt, w3) := timeNow env w2
    let refund : Refund :=
      { ID := id, TransactionID := transactionID, UserID := userID, Amount := amount,
        Status := "PENDING", CreatedAt := createdAt, LastModifiedAt := lastModifiedAt }
    match tx.Exec env.foreignKeys env.storeTime f.onExec (.insertRefund refund) with
    | .error err =>
      (.error ("failed to insert refund: " ++ err.Error), { w3 with db := tx.Rollback w3.db })
    | .ok tx1 =>
      match tx1.Commit f.onCommit w3.db with
      | (.error err, db1) =>
        (.error ("failed to commit refund: " ++ err.Error), { w3 with db := db1 })
      | (.ok _, db1) => (.ok refund, { w3 with db := db1 })

/-- UpdateRefundStatus updates the status of a refund. -/
def UpdateRefundStatus (env : Env) (f : Faults) (w : World)
    (refundID status : String) : Except GoError Unit × World :=
  match w.db.Begin f.onBegin with
  | .error err => (.error ("failed to begin transaction: " ++ err.Error), w)
  | .ok tx =>
    let (now, w1) := timeNow env w
    match tx.Exec env.foreignKeys env.storeTime f.onExec (.updateRefundStatus status now refundID) with
    | .error err =>
      (.error ("failed to update refund status: " ++ err.Error),
        { w1 with db := tx.Rollback w1.db })
    | .ok tx1 =>
      match tx1.Commit f.onCommit w1.db with
      | (.error err, db1) =>
        (.error ("failed to commit refund update: " ++ err.Error), { w1 with db := db1 })
      | (.ok _, db1) => (.ok (), { w1 with db := db1 })

/-- The row `QueryRow(...).Scan` reads for `SELECT ... FROM refunds WHERE
id = $1`. -/
def DB.QueryRowRefund (db : DB) (fault : Option String) (id : String) :
    Except SqlError Refund :=
  match fault with
  | some e => .error (.other e)
  | Option.none =>
    match db.refunds.find? (fun r => r.ID = id) with
    | Option.none => .error .ErrNoRows
    | some r => .ok r

/-- GetRefund retrieves a refund by its ID. -/
def GetRefund (db : DB) (fault : Option String) (refundID : String) :
    Except GoError Refund :=
  match db.QueryRowRefund fault refundID with
  | .error err =>
    if err = SqlError.ErrNoRows then
      .error ("refund not found: " ++ err.Error)
    else
      .error ("failed to get refund: " ++ err.Error)
  | .ok refund => .ok refund

/-- The rows `db.Query` yields for `SELECT ... FROM refunds WHERE
transaction_id = $1`, in store order, or the driver error of the query. -/
def DB.QueryRefundsByTransaction (db : DB) (fault : Option String) (transactionID : String) :
    Except SqlError (List Refund) :=
  match fault with
  | some e => .error (.other e)
  | Option.none => .ok (db.refunds.filter fun r => r.TransactionID = transactionID)

/-- The `for rows.Next()` loop of `ListRefundsByTransaction` and the `return
refunds, nil` after it.  `rows.Next()` returns false when the rows the query
matched are exhausted, and also when preparing the `i`-th row fails
(`nextFault i`, the error `rows.Err()` would then give); the source never reads
`rows.Err()`, so in both cases the loop ends and what was appended so far is
returned without an error.  `scanFault i` is the error of `rows.Scan` on the
`i`-th row, if any. -/
def scanRefunds (nextFault scanFault : Nat → Option String) :
    List Refund → Nat → List Refund → Except GoError (List Refund)
  | [], _, refunds => .ok refunds
  | row :: rows, i, refunds =>
    match nextFault i with
    | some _ => .ok refunds
    | Option.none =>
      match scanFault i with
      | some e => .error ("failed to scan refund: " ++ e)
      | Option.none => scanRefunds nextFault scanFault rows (i + 1) (refunds ++ [row])

/-- ListRefundsByTransaction retrieves all refunds related to a specific
transaction. -/
def ListRefundsByTransaction (db : DB) (queryFault : Option String)
    (nextFault scanFault : Nat → Option String) (transactionID : String) :
    Except GoError (List Refund) :=
  match db.QueryRefundsByTransaction queryFault transactionID with
  | .error err => .error ("failed to list refunds: " ++ err.Error)
  | .ok rows => scanRefunds nextFault scanFault rows 0 []

/-- DeleteRefund deletes a refund by its ID. -/
def DeleteRefund (env : Env) (f : Faults) (w : World)
    (refundID : String) : Except GoError Unit × World :=
  match w.db.Begin f.onBegin with
  | .error err => (.error ("failed to begin transaction: " ++ err.Error), w)
  | .ok tx =>
    match tx.Exec env.foreignKeys env.storeTime f.onExec (.deleteRefund refundID) with
    | .error err =>
      (.error ("failed to delete refund: " ++ err.Error), { w with db := tx.Rollback w.db })
    | .ok tx1 =>
      match tx1.Commit f.onCommit w.db with
      | (.error err, db1) =>
        (.error ("failed to commit refund deletion: " ++ err.Error), { w with db := db1 })
      | (.ok _, db1) => (.ok (), { w with db := db1 })

/-- A mutating call on one of the two managers, with its arguments. -/
inductive Call where
  | CreateTransaction (userID : String) (amount : Float64) (currency : String)
  | UpdateTransactionStatus (transactionID status : String)
  | DeleteTransaction (transactionID : String)
  | CreateRefund (transactionID userID : String) (amount : Float64)
  | UpdateRefundStatus (refundID status : String)
  | DeleteRefund (refundID : String)
  deriving DecidableEq, Repr

/-- The error a result carries (`none` for Go `nil`). -/
def errorOf {α : Type} : Except GoError α → Option GoError
  | .error e => some e
  | .ok _ => Option.none

/-- Performs one mutating call; gives the returned error and the new state. -/
def Call.run (env : Env) (f : Faults) (w : World) : Call → Option GoError × World
  | .CreateTransaction userID amount currency =>
    let r := TransactionManagement.CreateTransaction env f w userID amount currency
    (errorOf r.1, r.2)
  | .UpdateTransactionStatus transactionID status =>
    let r := TransactionManagement.UpdateTransactionStatus env f w transactionID status
    (errorOf r.1, r.2)
  | .DeleteTransaction transactionID =>
    let r := TransactionManagement.DeleteTransaction env f w transactionID
    (errorOf r.1, r.2)
  | .CreateRefund transactionID userID amount =>
    let r := TransactionManagement.CreateRefund env f w transactionID userID amount
    (errorOf r.1, r.2)
  | .UpdateRefundStatus refundID status =>
    let r := TransactionManagement.UpdateRefundStatus env f w refundID status
    (errorOf r.1, r.2)
  | .DeleteRefund refundID =>
    let r := TransactionManagement.DeleteRefund env f w refundID
    (errorOf r.1, r.2)

/-- Performs a sequence of mutating calls, each under its own store faults. -/
def runCalls (env : Env) : World → List (Call × Faults) → World
  | w, [] => w
  | w, (c, f) :: rest => runCalls env (c.run env f w).2 rest

/-- The composite literal of `CreateTransaction`: the row it is about to insert
in state `w`. -/
def newTransaction (env : Env) (w : World) (userID : String) (amount : Float64)
    (currency : String) : Transaction :=
  { ID := env.uuid w.uuidCalls, UserID := userID, Amount := amount, Currency := currency,
    Status := "PENDING", CreatedAt := env.clock w.clockReads,
    LastModifiedAt := env.clock (w.clockReads + 1) }

/-- The composite literal of `CreateRefund`: the row it is about to insert in
state `w`. -/
def newRefund (env : Env) (w : World) (transactionID userID : String) (amount : Float64) :
    Refund :=
  { ID := env.uuid w.uuidCalls, TransactionID := transactionID, UserID := userID,
    Amount := amount, Status := "PENDING", CreatedAt := env.clock w.clockReads,
    LastModifiedAt := env.clock (w.clockReads + 1) }

/-- The store accepts a unit of work made of the single statement `stmt`:
begin, the statement and commit all succeed.  The constraints look at
identifiers only, so the conversion of the timestamps to the precision of the
store plays no part in it. -/
def Accepts (fk : Bool) (f : Faults) (db : DB) (stmt : Stmt) : Prop :=
  f = Faults.none ∧ (stmt.apply fk db).isOk = true

instance (fk : Bool) (f : Faults) (db : DB) (stmt : Stmt) : Decidable (Accepts fk f db stmt) := by
  unfold Accepts
  infer_instance

/-- The row an `UPDATE ... SET status, last_modified_at` leaves in place of `r`. -/
def Transaction.withStatus (r : Transaction) (status : String) (at_ : Time) : Transaction :=
  { r with Status := status, LastModifiedAt := at_ }

/-- Every stored row was last modified no earlier than it was created. -/
def DB.TimesOrdered (db : DB) : Prop :=
  (∀ t ∈ db.transactions, t.CreatedAt ≤ t.LastModifiedAt) ∧
  (∀ r ∈ db.refunds, r.CreatedAt ≤ r.LastModifiedAt)

instance (db : DB) : Decidable db.TimesOrdered := by
  unfold DB.TimesOrdered
  infer_instance

/-- The invariant carried along a run: every stored row was created no later
than it was last modified, and no later than the next clock reading. -/
def World.TimesBounded (env : Env) (w : World) : Prop :=
  (∀ t ∈ w.db.transactions,
    t.CreatedAt ≤ t.LastModifiedAt ∧ t.CreatedAt ≤ env.now w.clockReads) ∧
  (∀ r ∈ w.db.refunds,
    r.CreatedAt ≤ r.LastModifiedAt ∧ r.CreatedAt ≤ env.now w.clockReads)

/-- A sample environment: identifiers `id-0`, `id-1`, ... and a clock that
advances by one at each reading, in front of a store that keeps timestamps as
they are written. -/
def sampleEnv : Env :=
  { uuid := fun k => "id-" ++ toString k, clock := fun k => 1000 + k,
    storeTime := fun t => t, foreignKeys := false }

/-- A world with an empty store and no reading taken yet. -/
def World.empty : World := ⟨DB.empty, 0, 0⟩

/-- A wall clock that is set back (by a time correction) after its second
reading: it reads 1000, 1001 and then 902, 903, ... -/
def steppedBackEnv : Env :=
  { uuid := fun k => "id-" ++ toString k,
    clock := fun k => if k < 2 then 1000 + k else 900 + k,
    storeTime := fun t => t,
    foreignKeys := false }

/-- A clock too coarse to tell two consecutive calls apart. -/
def coarseClockEnv : Env :=
  { uuid := fun k => "id-" ++ toString k, clock := fun _ => 1000,
    storeTime := fun t => t, foreignKeys := false }

/-- A clock read in nanoseconds (1000123, 1000373, ...) in front of a store
that keeps timestamps in microseconds. -/
def microsecondStoreEnv : Env :=
  { uuid := fun k => "id-" ++ toString k, clock := fun k => 1000123 + 250 * k,
    storeTime := fun t => t / 1000 * 1000, foreignKeys := false }

/-- A store holding one pending transaction `id-0`, as `CreateTransaction`
leaves it when called on the empty world under `sampleEnv`. -/
def sampleWorld : World :=
  { db := { transactions := [⟨"id-0", "user123", 100, "USD", "PENDING", 1000, 1001⟩],
            refunds := [] },
    uuidCalls := 1, clockReads := 2 }

/-- A refunds relation with two refunds of `tx-1` around one of `tx-2`. -/
def sampleRefundsDB : DB :=
  { transactions := [],
    refunds := [⟨"r-1", "tx-1", "user123", 40, "PENDING", 10, 11⟩,
                ⟨"r-2", "tx-2", "user456", 5, "PENDING", 12, 13⟩,
                ⟨"r-3", "tx-1", "user123", 60, "APPROVED", 14, 20⟩] }

/-- A store whose only transaction, `id-0`, is already `COMPLETED`: the state
reached under `sampleEnv` from the empty world by creating it and updating its
status. -/
def completedWorld : World :=
  { db := { transactions := [⟨"id-0", "user123", 100, "USD", "COMPLETED", 1000, 1002⟩],
            refunds := [] },
    uuidCalls := 1, clockReads := 3 }

/-- A store holding the transaction `id-0` and the refunds `r-1`, `r-2`, `r-3`. -/
def populatedWorld : World :=
  { db := { transactions := sampleWorld.db.transactions, refunds := sampleRefundsDB.refunds },
    uuidCalls := 4, clockReads := 8 }

/-! ## The store -/

theorem Accepts_iff {fk : Bool} {f : Faults} {db : DB} {stmt : Stmt} :
    Accepts fk f db stmt ↔ f = Faults.none ∧ ∃ db1, stmt.apply fk db = .ok db1 := by
  unfold Accepts
  cases stmt.apply fk db <;> simp [Except.isOk, Except.toBool]

theorem apply_insertTransaction_ok {fk : Bool} {db db1 : DB} {t : Transaction}
    (h : Stmt.apply fk db (.insertTransaction t) = .ok db1) :
    (∀ r ∈ db.transactions, r.ID ≠ t.ID) ∧
      db1 = { db with transactions := db.transactions ++ [t] } := by
  simp only [Stmt.apply] at h
  split at h
  · simp at h
  · rename_i hpk
    simp only [Except.ok.injEq] at h
    refine ⟨?_, h.symm⟩
    intro r hr hid
    exact hpk ⟨r, hr, hid⟩

theorem apply_insertTransaction_asStored {fk : Bool} {db db1 : DB} {t : Transaction}
    (storeTime : Time → Time) (h : Stmt.apply fk db (.insertTransaction t) = .ok db1) :
    Stmt.apply fk db (.insertTransaction (t.asStored storeTime)) =
      .ok { db with transactions := db.transactions ++ [t.asStored storeTime] } := by
  have hfresh := (apply_insertTransaction_ok h).1
  simp only [Stmt.apply]
  rw [if_neg]
  rintro ⟨r, hr, hid⟩
  exact hfresh r hr hid

theorem apply_insertRefund_ok {fk : Bool} {db db1 : DB} {r : Refund}
    (h : Stmt.apply fk db (.insertRefund r) = .ok db1) :
    (∀ x ∈ db.refunds, x.ID ≠ r.ID) ∧ db1 = { db with refunds := db.refunds ++ [r] } := by
  simp only [Stmt.apply] at h
  split at h
  · simp at h
  · rename_i hpk
    split at h
    · simp at h
    · simp only [Except.ok.injEq] at h
      refine ⟨?_, h.symm⟩
      intro x hx hid
      exact hpk ⟨x, hx, hid⟩

theorem apply_insertRefund_asStored {fk : Bool} {db db1 : DB} {r : Refund}
    (storeTime : Time → Time) (h : Stmt.apply fk db (.insertRefund r) = .ok db1) :
    Stmt.apply fk db (.insertRefund (r.asStored storeTime)) =
      .ok { db with refunds := db.refunds ++ [r.asStored storeTime] } := by
  simp only [Stmt.apply] at h ⊢
  split at h
  · simp at h
  · rename_i hpk
    split at h
    · simp at h
    · rename_i hfk
      rw [if_neg, if_neg]
      · exact hfk
      · exact hpk

theorem apply_deleteTransaction_ok {fk : Bool} {db db1 : DB} {id : String}
    (h : Stmt.apply fk db (.deleteTransaction id) = .ok db1) :
    db1 = { db with transactions := db.transactions.filter fun r => r.ID ≠ id } := by
  simp only [Stmt.apply] at h
  split at h
  · simp at h
  · simp only [Except.ok.injEq] at h
    exact h.symm

theorem find?_append_fresh {rows : List Transaction} {t : Transaction}
    (h : ∀ r ∈ rows, r.ID ≠ t.ID) :
    (rows ++ [t]).find? (fun r => r.ID = t.ID) = some t := by
  induction rows with
  | nil => simp
  | cons r rows ih =>
    have h1 : r.ID ≠ t.ID := h r (List.mem_cons_self _ _)
    have h2 : ∀ x ∈ rows, x.ID ≠ t.ID := fun x hx => h x (List.mem_cons_of_mem _ hx)
    simp [List.find?, h1, ih h2]

theorem find?_filter_ne (rows : List Transaction) (id : String) :
    (rows.filter fun r => r.ID ≠ id).find? (fun r => r.ID = id) = none := by
  simp [List.find?_eq_none]

theorem find?_map_withStatus {rows : List Transaction} {id status : String} {now : Time}
    {r : Transaction} (h : rows.find? (fun x => x.ID = id) = some r) :
    (rows.map fun x => if x.ID = id then
        { x with Status := status, LastModifiedAt := now } else x).find?
      (fun x => x.ID = id) = some (r.withStatus status now) := by
  induction rows with
  | nil => simp at h
  | cons x rows ih =>
    by_cases hx : x.ID = id
    · subst hx
      simp [List.find?] at h ⊢
      subst h
      rfl
    · simp [List.find?, hx] at h ⊢
      simpa using ih h

/-! ## The mutating calls: when they succeed, and what a failure leaves -/

theorem CreateTransaction_ok_iff {env : Env} {f : Faults} {w : World} {userID : String}
    {amount : Float64} {currency : String} {t : Transaction} {w1 : World} :
    CreateTransaction env f w userID amount currency = (.ok t, w1) ↔
      f = Faults.none ∧ t = newTransaction env w userID amount currency ∧
      ∃ db1, Stmt.apply env.foreignKeys w.db
          (.insertTransaction (t.asStored env.storeTime)) = .ok db1 ∧
        w1 = ⟨db1, w.uuidCalls + 1, w.clockReads + 2⟩ := by
  constructor
  · intro h
    obtain ⟨fb, fe, fc⟩ := f
    cases fb <;> cases fe <;> cases fc <;>
      simp only [CreateTransaction, DB.Begin, Tx.Exec, Stmt.asStored, Tx.Commit, Tx.Rollback,
        generateUUID, timeNow] at h <;>
      try simp at h
    all_goals (generalize hA : Stmt.apply _ _ _ = res at h; cases res <;> simp at h)
    obtain ⟨rfl, rfl⟩ := h
    exact ⟨rfl, rfl, _, hA, rfl⟩
  · rintro ⟨rfl, rfl, db1, hA, rfl⟩
    simp only [newTransaction] at hA
    simp [CreateTransaction, DB.Begin, Tx.Exec, Stmt.asStored, Tx.Commit, generateUUID, timeNow, Faults.none,
      newTransaction, hA]

theorem CreateTransaction_error_db {env : Env} {f : Faults} {w : World} {userID : String}
    {amount : Float64} {currency : String} {e : GoError}
    (h : (CreateTransaction env f w userID amount currency).1 = .error e) :
    (CreateTransaction env f w userID amount currency).2.db = w.db := by
  obtain ⟨fb, fe, fc⟩ := f
  cases fb <;> cases fe <;> cases fc <;>
    simp only [CreateTransaction, DB.Begin, Tx.Exec, Stmt.asStored, Tx.Commit, Tx.Rollback,
      generateUUID, timeNow] at h ⊢
  all_goals (generalize Stmt.apply _ _ _ = res at h ⊢; cases res <;> simp at h ⊢)

theorem CreateRefund_ok_iff {env : Env} {f : Faults} {w : World} {transactionID userID : String}
    {amount : Float64} {r : Refund} {w1 : World} :
    CreateRefund env f w transactionID userID amount = (.ok r, w1) ↔
      f = Faults.none ∧ r = newRefund env w transactionID userID amount ∧
      ∃ db1, Stmt.apply env.foreignKeys w.db
          (.insertRefund (r.asStored env.storeTime)) = .ok db1 ∧
        w1 = ⟨db1, w.uuidCalls + 1, w.clockReads + 2⟩ := by
  constructor
  · intro h
    obtain ⟨fb, fe, fc⟩ := f
    cases fb <;> cases fe <;> cases fc <;>
      simp only [CreateRefund, DB.Begin, Tx.Exec, Stmt.asStored, Tx.Commit, Tx.Rollback,
        generateUUID, timeNow] at h <;>
      try simp at h
    all_goals (generalize hA : Stmt.apply _ _ _ = res at h; cases res <;> simp at h)
    obtain ⟨rfl, rfl⟩ := h
    exact ⟨rfl, rfl, _, hA, rfl⟩
  · rintro ⟨rfl, rfl, db1, hA, rfl⟩
    simp only [newRefund] at hA
    simp [CreateRefund, DB.Begin, Tx.Exec, Stmt.asStored, Tx.Commit, generateUUID, timeNow, Faults.none,
      newRefund, hA]

theorem CreateRefund_error_db {env : Env} {f : Faults} {w : World} {transactionID userID : String}
    {amount : Float64} {e : GoError}
    (h : (CreateRefund env f w transactionID userID amount).1 = .error e) :
    (CreateRefund env f w transactionID userID amount).2.db = w.db := by
  obtain ⟨fb, fe, fc⟩ := f
  cases fb <;> cases fe <;> cases fc <;>
    simp only [CreateRefund, DB.Begin, Tx.Exec, Stmt.asStored, Tx.Commit, Tx.Rollback,
      generateUUID, timeNow] at h ⊢
  all_goals (generalize Stmt.apply _ _ _ = res at h ⊢; cases res <;> simp at h ⊢)

theorem UpdateTransactionStatus_ok_iff {env : Env} {f : Faults} {w : World}
    {transactionID status : String} {w1 : World} :
    UpdateTransactionStatus env f w transactionID status = (.ok (), w1) ↔
      f = Faults.none ∧
      w1 = ⟨{ w.db with transactions := w.db.transactions.map fun r =>
              if r.ID = transactionID then
                { r with Status := status, LastModifiedAt := env.now w.clockReads }
              else r },
            w.uuidCalls, w.clockReads + 1⟩ := by
  obtain ⟨fb, fe, fc⟩ := f
  cases fb <;> cases fe <;> cases fc <;>
    simp [UpdateTransactionStatus, DB.Begin, Tx.Exec, Stmt.asStored, Tx.Commit, Tx.Rollback, timeNow,
      Stmt.apply, Faults.none, Env.now, eq_comm]

theorem UpdateTransactionStatus_error_db {env : Env} {f : Faults} {w : World}
    {transactionID status : String} {e : GoError}
    (h : (UpdateTransactionStatus env f w transactionID status).1 = .error e) :
    (UpdateTransactionStatus env f w transactionID status).2.db = w.db := by
  obtain ⟨fb, fe, fc⟩ := f
  cases fb <;> cases fe <;> cases fc <;>
    simp [UpdateTransactionStatus, DB.Begin, Tx.Exec, Stmt.asStored, Tx.Commit, Tx.Rollback, timeNow,
      Stmt.apply] at h ⊢

theorem UpdateRefundStatus_ok_iff {env : Env} {f : Faults} {w : World}
    {refundID status : String} {w1 : World} :
    UpdateRefundStatus env f w refundID status = (.ok (), w1) ↔
      f = Faults.none ∧
      w1 = ⟨{ w.db with refunds := w.db.refunds.map fun r =>
              if r.ID = refundID then
                { r with Status := status, LastModifiedAt := env.now w.clockReads }
              else r },
            w.uuidCalls, w.clockReads + 1⟩ := by
  obtain ⟨fb, fe, fc⟩ := f
  cases fb <;> cases fe <;> cases fc <;>
    simp [UpdateRefundStatus, DB.Begin, Tx.Exec, Stmt.asStored, Tx.Commit, Tx.Rollback, timeNow,
      Stmt.apply, Faults.none, Env.now, eq_comm]

theorem UpdateRefundStatus_error_db {env : Env} {f : Faults} {w : World}
    {refundID status : String} {e : GoError}
    (h : (UpdateRefundStatus env f w refundID status).1 = .error e) :
    (UpdateRefundStatus env f w refundID status).2.db = w.db := by
  obtain ⟨fb, fe, fc⟩ := f
  cases fb <;> cases fe <;> cases fc <;>
    simp [UpdateRefundStatus, DB.Begin, Tx.Exec, Stmt.asStored, Tx.Commit, Tx.Rollback, timeNow,
      Stmt.apply] at h ⊢

theorem DeleteTransaction_ok_iff {env : Env} {f : Faults} {w : World}
    {transactionID : String} {w1 : World} :
    DeleteTransaction env f w transactionID = (.ok (), w1) ↔
      f = Faults.none ∧
      ∃ db1, Stmt.apply env.foreignKeys w.db (.deleteTransaction transactionID) = .ok db1 ∧
        w1 = { w with db := db1 } := by
  constructor
  · intro h
    obtain ⟨fb, fe, fc⟩ := f
    cases fb <;> cases fe <;> cases fc <;>
      simp only [DeleteTransaction, DB.Begin, Tx.Exec, Stmt.asStored, Tx.Commit, Tx.Rollback] at h <;>
      try simp at h
    all_goals (generalize hA : Stmt.apply _ _ _ = res at h; cases res <;> simp at h)
    subst h
    exact ⟨rfl, _, rfl, rfl⟩
  · rintro ⟨rfl, db1, hA, rfl⟩
    simp [DeleteTransaction, DB.Begin, Tx.Exec, Stmt.asStored, Tx.Commit, Faults.none, hA]

theorem DeleteTransaction_error_db {env : Env} {f : Faults} {w : World}
    {transactionID : String} {e : GoError}
    (h : (DeleteTransaction env f w transactionID).1 = .error e) :
    (DeleteTransaction env f w transactionID).2.db = w.db := by
  obtain ⟨fb, fe, fc⟩ := f
  cases fb <;> cases fe <;> cases fc <;>
    simp only [DeleteTransaction, DB.Begin, Tx.Exec, Stmt.asStored, Tx.Commit, Tx.Rollback] at h ⊢
  all_goals (generalize Stmt.apply _ _ _ = res at h ⊢; cases res <;> simp at h ⊢)

theorem DeleteRefund_ok_iff {env : Env} {f : Faults} {w : World}
    {refundID : String} {w1 : World} :
    DeleteRefund env f w refundID = (.ok (), w1) ↔
      f = Faults.none ∧
      w1 = { w with db := { w.db with refunds := w.db.refunds.filter fun r => r.ID ≠ refundID } } := by
  obtain ⟨fb, fe, fc⟩ := f
  cases fb <;> cases fe <;> cases fc <;>
    simp [DeleteRefund, DB.Begin, Tx.Exec, Stmt.asStored, Tx.Commit, Tx.Rollback, Stmt.apply, Faults.none,
      eq_comm]

theorem DeleteRefund_error_db {env : Env} {f : Faults} {w : World}
    {refundID : String} {e : GoError}
    (h : (DeleteRefund env f w refundID).1 = .error e) :
    (DeleteRefund env f w refundID).2.db = w.db := by
  obtain ⟨fb, fe, fc⟩ := f
  cases fb <;> cases fe <;> cases fc <;>
    simp [DeleteRefund, DB.Begin, Tx.Exec, Stmt.asStored, Tx.Commit, Tx.Rollback, Stmt.apply] at h ⊢

theorem GetTransaction_of_find? {db : DB} {id : String} {r : Transaction}
    (h : db.transactions.find? (fun x => x.ID = id) = some r) :
    GetTransaction db none id = .ok r := by
  simp [GetTransaction, DB.QueryRowTransaction, h]

theorem GetTransaction_of_find?_none {db : DB} {id : String}
    (h : db.transactions.find? (fun x => x.ID = id) = none) :
    GetTransaction db none id = .error "transaction not found: sql: no rows in result set" := by
  simp only [GetTransaction, DB.QueryRowTransaction, h]
  rfl

/-! ## Creation -/

/-- C1: whenever the store accepts the insert and the commit, `CreateTransaction`
returns a transaction with Status `PENDING`, with UserID, Amount and Currency
equal to the arguments and with the freshly generated identifier as ID; that
identifier differs from the ID of every transaction already stored and, for a
generator that never repeats a value, from every identifier issued earlier. -/
theorem CreateTransaction_pending_fresh (env : Env) (f : Faults) (w : World)
    (userID : String) (amount : Float64) (currency : String)
    (hacc : Accepts env.foreignKeys f w.db
      (.insertTransaction (newTransaction env w userID amount currency))) :
    ∃ t w1, CreateTransaction env f w userID amount currency = (.ok t, w1) ∧
      t.Status = "PENDING" ∧ t.UserID = userID ∧ t.Amount = amount ∧
      t.Currency = currency ∧ t.ID = env.uuid w.uuidCalls ∧
      (∀ r ∈ w.db.transactions, r.ID ≠ t.ID) ∧
      (Function.Injective env.uuid → ∀ k, k < w.uuidCalls → env.uuid k ≠ t.ID) := by
  obtain ⟨hf, db1, hA⟩ := Accepts_iff.mp hacc
  refine ⟨newTransaction env w userID amount currency, ⟨_, w.uuidCalls + 1, w.clockReads + 2⟩,
    CreateTransaction_ok_iff.mpr
      ⟨hf, rfl, _, apply_insertTransaction_asStored env.storeTime hA, rfl⟩,
    rfl, rfl, rfl, rfl, rfl, (apply_insertTransaction_ok hA).1, ?_⟩
  intro hinj k hk heq
  have hkk : k = w.uuidCalls := hinj heq
  omega

/-- C1, at a concrete input: a second transaction created in a store that
already holds `id-0`. -/
theorem CreateTransaction_pending_fresh_witness :
    Accepts sampleEnv.foreignKeys Faults.none sampleWorld.db
        (.insertTransaction (newTransaction sampleEnv sampleWorld "user456" 250 "EUR")) ∧
      ∃ t w1, CreateTransaction sampleEnv Faults.none sampleWorld "user456" 250 "EUR"
          = (.ok t, w1) ∧
        t.Status = "PENDING" ∧ t.UserID = "user456" ∧ t.Amount = 250 ∧
        t.Currency = "EUR" ∧ t.ID = sampleEnv.uuid sampleWorld.uuidCalls ∧
        (∀ r ∈ sampleWorld.db.transactions, r.ID ≠ t.ID) ∧
        (Function.Injective sampleEnv.uuid →
          ∀ k, k < sampleWorld.uuidCalls → sampleEnv.uuid k ≠ t.ID) :=
  have hacc : Accepts sampleEnv.foreignKeys Faults.none sampleWorld.db
      (.insertTransaction (newTransaction sampleEnv sampleWorld "user456" 250 "EUR")) :=
    by decide
  ⟨hacc, CreateTransaction_pending_fresh sampleEnv Faults.none sampleWorld "user456" 250 "EUR" hacc⟩

/-- C2, as stated, fails: in front of a store that keeps timestamps in
microseconds, `CreateTransaction` returns the clock readings 1000123 and
1000373 as CreatedAt and LastModifiedAt, and the immediately following
`GetTransaction` returns 1000000 for both. -/
theorem roundtrip_timestamps_differ_by_store_precision :
    ∃ t w1 g,
      CreateTransaction microsecondStoreEnv Faults.none World.empty "user123" 100 "USD"
        = (.ok t, w1) ∧
      GetTransaction w1.db none t.ID = .ok g ∧
      t.CreatedAt = 1000123 ∧ g.CreatedAt = 1000000 ∧
      t.LastModifiedAt = 1000373 ∧ g.LastModifiedAt = 1000000 ∧
      g.CreatedAt ≠ t.CreatedAt ∧ g.LastModifiedAt ≠ t.LastModifiedAt :=
  ⟨⟨"id-0", "user123", 100, "USD", "PENDING", 1000123, 1000373⟩, _,
    ⟨"id-0", "user123", 100, "USD", "PENDING", 1000000, 1000000⟩,
    rfl, rfl, rfl, rfl, rfl, rfl, by decide, by decide⟩

/-- C2, amended: round trip.  After a successful `CreateTransaction` returning
`t`, an immediately following `GetTransaction t.ID` that the store answers
succeeds and returns a transaction with the same ID, UserID, Amount, Currency
and Status as `t`, and with the CreatedAt and LastModifiedAt of `t` as the store
keeps them, that is at the timestamp precision of the store; if the read itself
fails at the store, the failure is returned wrapped. -/
theorem GetTransaction_after_CreateTransaction (env : Env) (f : Faults) (w : World)
    (userID : String) (amount : Float64) (currency : String) (t : Transaction) (w1 : World)
    (h : CreateTransaction env f w userID amount currency = (.ok t, w1)) :
    (∃ g, GetTransaction w1.db none t.ID = .ok g ∧
      g.ID = t.ID ∧ g.UserID = t.UserID ∧ g.Amount = t.Amount ∧ g.Currency = t.Currency ∧
      g.Status = t.Status ∧ g.CreatedAt = env.storeTime t.CreatedAt ∧
      g.LastModifiedAt = env.storeTime t.LastModifiedAt) ∧
    ∀ e, GetTransaction w1.db (some e) t.ID =
      .error ("failed to get transaction: " ++ e) := by
  obtain ⟨_, _, db1, hA, rfl⟩ := CreateTransaction_ok_iff.mp h
  obtain ⟨hfresh, rfl⟩ := apply_insertTransaction_ok hA
  refine ⟨⟨t.asStored env.storeTime, GetTransaction_of_find? (find?_append_fresh hfresh),
    rfl, rfl, rfl, rfl, rfl, rfl, rfl⟩, ?_⟩
  intro e
  rfl

/-- C2 amended, at a concrete input: the transaction created in front of the
microsecond store is read back with both timestamps at 1000000. -/
theorem GetTransaction_after_CreateTransaction_witness :
    CreateTransaction microsecondStoreEnv Faults.none World.empty "user123" 100 "USD" =
        (.ok ⟨"id-0", "user123", 100, "USD", "PENDING", 1000123, 1000373⟩,
          ⟨⟨[⟨"id-0", "user123", 100, "USD", "PENDING", 1000000, 1000000⟩], []⟩, 1, 2⟩) ∧
      ∃ g, GetTransaction
          (⟨[⟨"id-0", "user123", 100, "USD", "PENDING", 1000000, 1000000⟩], []⟩ : DB)
          none "id-0" = .ok g ∧
        g.ID = "id-0" ∧ g.UserID = "user123" ∧ g.Amount = 100 ∧ g.Currency = "USD" ∧
        g.Status = "PENDING" ∧ g.CreatedAt = microsecondStoreEnv.storeTime 1000123 ∧
        g.LastModifiedAt = microsecondStoreEnv.storeTime 1000373 :=
  ⟨rfl, (GetTransaction_after_CreateTransaction microsecondStoreEnv Faults.none World.empty
    "user123" 100 "USD" _ _ rfl).1⟩

/-! ## Status updates and deletion, seen through `GetTransaction` -/

/-- C3, as stated, fails: under a clock too coarse to tell the creation from
the update, `UpdateTransactionStatus id "COMPLETED"` followed by
`GetTransaction id` yields Status `COMPLETED` but a LastModifiedAt equal to,
not greater than, the CreatedAt given at creation. -/
theorem completed_lastModified_not_after_created :
    ∃ t w1 w2 g,
      CreateTransaction coarseClockEnv Faults.none World.empty "user123" 100 "USD"
        = (.ok t, w1) ∧
      UpdateTransactionStatus coarseClockEnv Faults.none w1 t.ID "COMPLETED" = (.ok (), w2) ∧
      GetTransaction w2.db none t.ID = .ok g ∧
      g.Status = "COMPLETED" ∧ ¬ (g.LastModifiedAt > t.CreatedAt) :=
  ⟨⟨"id-0", "user123", 100, "USD", "PENDING", 1000, 1000⟩, _, _,
    ⟨"id-0", "user123", 100, "USD", "COMPLETED", 1000, 1000⟩, rfl, rfl, rfl, rfl, by decide⟩

/-- C3, amended: for a stored transaction `id`, a successful
`UpdateTransactionStatus id "COMPLETED"` followed by `GetTransaction id` returns
Status `COMPLETED`, the unchanged CreatedAt, and as LastModifiedAt the clock
reading taken by the update, whatever that reading is; LastModifiedAt is
strictly greater than the CreatedAt given at creation if, and only if, that
reading is strictly later than it. -/
theorem GetTransaction_after_completed (env : Env) (f : Faults) (w : World) (id : String)
    (r : Transaction) (w1 : World)
    (hstored : w.db.transactions.find? (fun x => x.ID = id) = some r)
    (hupd : UpdateTransactionStatus env f w id "COMPLETED" = (.ok (), w1)) :
    ∃ g, GetTransaction w1.db none id = .ok g ∧ g.Status = "COMPLETED" ∧
      g.CreatedAt = r.CreatedAt ∧ g.LastModifiedAt = env.now w.clockReads ∧
      (g.LastModifiedAt > r.CreatedAt ↔ r.CreatedAt < env.now w.clockReads) := by
  obtain ⟨_, rfl⟩ := UpdateTransactionStatus_ok_iff.mp hupd
  exact ⟨r.withStatus "COMPLETED" (env.now w.clockReads),
    GetTransaction_of_find? (find?_map_withStatus hstored), rfl, rfl, rfl, Iff.rfl⟩

/-- C3 amended, at two concrete inputs: `id-0` created at 1000 and completed at
the later reading 1002, and `id-0` created and completed at the same reading
1000 of the coarse clock. -/
theorem GetTransaction_after_completed_witness :
    (∃ g, GetTransaction
          (⟨[⟨"id-0", "user123", 100, "USD", "COMPLETED", 1000, 1002⟩], []⟩ : DB) none "id-0"
            = .ok g ∧
        g.Status = "COMPLETED" ∧ g.CreatedAt = 1000 ∧
        g.LastModifiedAt = sampleEnv.now sampleWorld.clockReads ∧
        (g.LastModifiedAt > 1000 ↔ 1000 < sampleEnv.now sampleWorld.clockReads)) ∧
      (∃ g, GetTransaction
          (⟨[⟨"id-0", "user123", 100, "USD", "COMPLETED", 1000, 1000⟩], []⟩ : DB) none "id-0"
            = .ok g ∧
        g.Status = "COMPLETED" ∧ g.CreatedAt = 1000 ∧
        g.LastModifiedAt = coarseClockEnv.now 2 ∧
        (g.LastModifiedAt > 1000 ↔ 1000 < coarseClockEnv.now 2)) :=
  ⟨GetTransaction_after_completed sampleEnv Faults.none sampleWorld "id-0"
      ⟨"id-0", "user123", 100, "USD", "PENDING", 1000, 1001⟩
      ⟨⟨[⟨"id-0", "user123", 100, "USD", "COMPLETED", 1000, 1002⟩], []⟩, 1, 3⟩
      rfl rfl,
    GetTransaction_after_completed coarseClockEnv Faults.none
      ⟨⟨[⟨"id-0", "user123", 100, "USD", "PENDING", 1000, 1000⟩], []⟩, 1, 2⟩ "id-0"
      ⟨"id-0", "user123", 100, "USD", "PENDING", 1000, 1000⟩
      ⟨⟨[⟨"id-0", "user123", 100, "USD", "COMPLETED", 1000, 1000⟩], []⟩, 1, 3⟩
      rfl rfl⟩

/-- C4: after a successful `DeleteTransaction id`, `GetTransaction id` returns no
transaction and fails with the not-found error of the `sql.ErrNoRows` branch. -/
theorem GetTransaction_after_DeleteTransaction (env : Env) (f : Faults) (w : World)
    (id : String) (w1 : World)
    (h : DeleteTransaction env f w id = (.ok (), w1)) :
    GetTransaction w1.db none id =
        .error ("transaction not found: " ++ SqlError.ErrNoRows.Error) ∧
      ∀ g, GetTransaction w1.db none id ≠ .ok g := by
  obtain ⟨_, db1, hA, rfl⟩ := DeleteTransaction_ok_iff.mp h
  have hdb := apply_deleteTransaction_ok hA
  subst hdb
  have hget : GetTransaction
      { w.db with transactions := w.db.transactions.filter fun r => r.ID ≠ id } none id =
        .error "transaction not found: sql: no rows in result set" :=
    GetTransaction_of_find?_none (find?_filter_ne w.db.transactions id)
  refine ⟨hget, ?_⟩
  intro g hg
  rw [hget] at hg
  cases hg

/-- C4, at a concrete input: `id-0` deleted from a store that held it. -/
theorem GetTransaction_after_DeleteTransaction_witness :
    DeleteTransaction sampleEnv Faults.none sampleWorld "id-0" = (.ok (), ⟨⟨[], []⟩, 1, 2⟩) ∧
      GetTransaction (⟨[], []⟩ : DB) none "id-0" =
        .error "transaction not found: sql: no rows in result set" :=
  ⟨rfl, (GetTransaction_after_DeleteTransaction sampleEnv Faults.none sampleWorld "id-0"
    ⟨⟨[], []⟩, 1, 2⟩ rfl).1⟩

/-! ## Listing refunds -/

theorem scanRefunds_prefix {nextFault scanFault : Nat → Option String} {rows : List Refund}
    {i : Nat} {acc l : List Refund}
    (h : scanRefunds nextFault scanFault rows i acc = .ok l) :
    ∃ k, l = acc ++ rows.take k := by
  induction rows generalizing i acc with
  | nil =>
    simp only [scanRefunds, Except.ok.injEq] at h
    exact ⟨0, by simp [h]⟩
  | cons row rows ih =>
    simp only [scanRefunds] at h
    split at h
    · simp only [Except.ok.injEq] at h
      exact ⟨0, by simp [h]⟩
    · split at h
      · simp at h
      · obtain ⟨k, hk⟩ := ih h
        exact ⟨k + 1, by simp [hk]⟩

theorem scanRefunds_ok {nextFault scanFault : Nat → Option String} {rows : List Refund}
    {i : Nat} {acc l : List Refund} (hnext : ∀ j, nextFault j = none)
    (h : scanRefunds nextFault scanFault rows i acc = .ok l) :
    l = acc ++ rows := by
  induction rows generalizing i acc with
  | nil =>
    simp only [scanRefunds, Except.ok.injEq] at h
    simp [h]
  | cons row rows ih =>
    simp only [scanRefunds, hnext] at h
    split at h
    · simp at h
    · have := ih h
      simpa using this

/-- What `ListRefundsByTransaction` does guarantee: a returned list is an initial
segment of the stored refunds of `transactionID`, in store order, so no refund
of another transaction appears; it is all of them when no iteration error cut
the loop short. -/
theorem ListRefundsByTransaction_initial_segment (db : DB) (queryFault : Option String)
    (nextFault scanFault : Nat → Option String) (transactionID : String) (l : List Refund)
    (h : ListRefundsByTransaction db queryFault nextFault scanFault transactionID = .ok l) :
    (∃ k, l = (db.refunds.filter (fun r => r.TransactionID = transactionID)).take k) ∧
      (∀ r ∈ l, r.TransactionID = transactionID ∧ r ∈ db.refunds) ∧
      ((∀ j, nextFault j = none) →
        l = db.refunds.filter (fun r => r.TransactionID = transactionID)) := by
  cases queryFault with
  | some e => simp [ListRefundsByTransaction, DB.QueryRefundsByTransaction] at h
  | none =>
    simp only [ListRefundsByTransaction, DB.QueryRefundsByTransaction] at h
    obtain ⟨k, hk⟩ := scanRefunds_prefix h
    simp only [List.nil_append] at hk
    refine ⟨⟨k, hk⟩, ?_, ?_⟩
    · intro r hr
      rw [hk] at hr
      have hmem := List.mem_of_mem_take hr
      simp only [List.mem_filter, decide_eq_true_eq] at hmem
      exact ⟨hmem.2, hmem.1⟩
    · intro hnext
      simpa using scanRefunds_ok hnext h

/-- C5, at the failing input: three refunds are stored, `r-1` and `r-3` of
`tx-1` and `r-2` of `tx-2`; the iteration over the rows of `tx-1` fails after the
first row.  `rows.Next()` returns false, `rows.Err()` is never read, and
`ListRefundsByTransaction "tx-1"` returns `r-1` alone without an error, although
`r-3` is a stored refund of `tx-1` as well. -/
theorem ListRefundsByTransaction_truncated_without_error :
    ListRefundsByTransaction sampleRefundsDB none
        (fun i => if i = 1 then some "driver: bad connection" else none) (fun _ => none) "tx-1"
      = .ok [⟨"r-1", "tx-1", "user123", 40, "PENDING", 10, 11⟩] ∧
    sampleRefundsDB.refunds.filter (fun r => r.TransactionID = "tx-1") =
      [⟨"r-1", "tx-1", "user123", 40, "PENDING", 10, 11⟩,
       ⟨"r-3", "tx-1", "user123", 60, "APPROVED", 14, 20⟩] ∧
    (⟨"r-3", "tx-1", "user123", 60, "APPROVED", 14, 20⟩ : Refund) ∈ sampleRefundsDB.refunds :=
  ⟨rfl, rfl, by decide⟩

/-! ## Atomicity -/

theorem errorOf_eq_some {α : Type} {r : Except GoError α} {e : GoError}
    (h : errorOf r = some e) : r = .error e := by
  cases r with
  | error e1 => simp only [errorOf, Option.some.injEq] at h; rw [h]
  | ok a => simp [errorOf] at h

/-- C6: atomicity on failure.  Whichever of the six mutating calls is made, in
whatever state and under whatever store faults, if it returns an error then the
committed store after the call is the store before it. -/
theorem failed_call_leaves_store_unchanged (env : Env) (f : Faults) (w : World) (c : Call)
    (e : GoError) (h : (c.run env f w).1 = some e) :
    (c.run env f w).2.db = w.db := by
  cases c with
  | CreateTransaction userID amount currency =>
    exact CreateTransaction_error_db (errorOf_eq_some h)
  | UpdateTransactionStatus transactionID status =>
    exact UpdateTransactionStatus_error_db (errorOf_eq_some h)
  | DeleteTransaction transactionID =>
    exact DeleteTransaction_error_db (errorOf_eq_some h)
  | CreateRefund transactionID userID amount =>
    exact CreateRefund_error_db (errorOf_eq_some h)
  | UpdateRefundStatus refundID status =>
    exact UpdateRefundStatus_error_db (errorOf_eq_some h)
  | DeleteRefund refundID =>
    exact DeleteRefund_error_db (errorOf_eq_some h)

/-- C6, at a concrete input: an update whose commit fails. -/
theorem failed_call_leaves_store_unchanged_witness :
    ((Call.UpdateTransactionStatus "id-0" "COMPLETED").run sampleEnv
        ⟨none, none, some "driver: bad connection"⟩ sampleWorld).1 =
        some "failed to commit transaction: driver: bad connection" ∧
      ((Call.UpdateTransactionStatus "id-0" "COMPLETED").run sampleEnv
        ⟨none, none, some "driver: bad connection"⟩ sampleWorld).2.db = sampleWorld.db :=
  ⟨rfl, failed_call_leaves_store_unchanged sampleEnv ⟨none, none, some "driver: bad connection"⟩
    sampleWorld (Call.UpdateTransactionStatus "id-0" "COMPLETED") _ rfl⟩

/-! ## Refund creation -/

theorem apply_insertRefund_transactions_irrelevant {db : DB} {r : Refund} {db1 : DB}
    (ts : List Transaction) (h : Stmt.apply false db (.insertRefund r) = .ok db1) :
    Stmt.apply false ⟨ts, db.refunds⟩ (.insertRefund r) = .ok ⟨ts, db1.refunds⟩ := by
  obtain ⟨hfresh, rfl⟩ := apply_insertRefund_ok h
  simp only [Stmt.apply]
  rw [if_neg, if_neg]
  · simp
  · rintro ⟨x, hx, hid⟩
    exact hfresh x hx hid

/-- C7: `CreateRefund` performs no cross-entity validation.  Whenever the store
accepts the insert, it returns the refund built from the arguments alone, with
Status `PENDING` and the given TransactionID, UserID and Amount, and appends it
(as the store keeps it) to the refunds relation.  The contents of the store do
not enter the result: with any other transactions relation `ts` (with or without
the referenced transaction, whatever its amount) a store that does not enforce
the foreign key still accepts, and in any store `db2` that accepts the insert
the same refund is returned and appended, the transactions relation being left
as it is. -/
theorem CreateRefund_no_cross_entity_validation (env : Env) (f : Faults) (w : World)
    (transactionID userID : String) (amount : Float64)
    (hacc : Accepts env.foreignKeys f w.db
      (.insertRefund (newRefund env w transactionID userID amount))) :
    ∃ r w1, CreateRefund env f w transactionID userID amount = (.ok r, w1) ∧
      r.Status = "PENDING" ∧ r.TransactionID = transactionID ∧ r.UserID = userID ∧
      r.Amount = amount ∧
      w1.db.refunds = w.db.refunds ++ [r.asStored env.storeTime] ∧
      w1.db.transactions = w.db.transactions ∧
      (∀ ts : List Transaction, env.foreignKeys = false →
        Accepts env.foreignKeys f ⟨ts, w.db.refunds⟩
          (.insertRefund (newRefund env w transactionID userID amount))) ∧
      (∀ db2 : DB,
        Accepts env.foreignKeys f db2
            (.insertRefund (newRefund env w transactionID userID amount)) →
          ∃ w2, CreateRefund env f { w with db := db2 } transactionID userID amount
              = (.ok r, w2) ∧
            w2.db.refunds = db2.refunds ++ [r.asStored env.storeTime] ∧
            w2.db.transactions = db2.transactions) := by
  obtain ⟨hf, db1, hA⟩ := Accepts_iff.mp hacc
  refine ⟨newRefund env w transactionID userID amount,
    ⟨_, w.uuidCalls + 1, w.clockReads + 2⟩,
    CreateRefund_ok_iff.mpr ⟨hf, rfl, _, apply_insertRefund_asStored env.storeTime hA, rfl⟩,
    rfl, rfl, rfl, rfl, rfl, rfl, ?_, ?_⟩
  · intro ts hfk
    rw [hfk] at hA ⊢
    exact Accepts_iff.mpr ⟨hf, _, apply_insertRefund_transactions_irrelevant ts hA⟩
  · intro db2 hacc2
    obtain ⟨_, db3, hA2⟩ := Accepts_iff.mp hacc2
    exact ⟨⟨_, w.uuidCalls + 1, w.clockReads + 2⟩,
      CreateRefund_ok_iff.mpr ⟨hf, rfl, _, apply_insertRefund_asStored env.storeTime hA2, rfl⟩,
      rfl, rfl⟩

/-- C7, at a concrete input: a refund of 4000 against `no-such-tx`, which no
stored transaction carries, in a store holding only the transaction `id-0` of
amount 100. -/
theorem CreateRefund_no_cross_entity_validation_witness :
    Accepts sampleEnv.foreignKeys Faults.none sampleWorld.db
        (.insertRefund (newRefund sampleEnv sampleWorld "no-such-tx" "user123" 4000)) ∧
      ∃ r w1, CreateRefund sampleEnv Faults.none sampleWorld "no-such-tx" "user123" 4000
          = (.ok r, w1) ∧
        r.Status = "PENDING" ∧ r.TransactionID = "no-such-tx" ∧ r.UserID = "user123" ∧
        r.Amount = 4000 ∧
        w1.db.refunds = sampleWorld.db.refunds ++ [r.asStored sampleEnv.storeTime] ∧
        w1.db.transactions = sampleWorld.db.transactions :=
  have hacc : Accepts sampleEnv.foreignKeys Faults.none sampleWorld.db
      (.insertRefund (newRefund sampleEnv sampleWorld "no-such-tx" "user123" 4000)) :=
    by decide
  match CreateRefund_no_cross_entity_validation sampleEnv Faults.none sampleWorld
      "no-such-tx" "user123" 4000 hacc with
  | ⟨r, w1, h1, h2, h3, h4, h5, h6, h7, _⟩ => ⟨hacc, r, w1, h1, h2, h3, h4, h5, h6, h7⟩

/-! ## Status updates on the stored rows -/

/-- C8: `UpdateTransactionStatus` overwrites unconditionally and touches only
Status and LastModifiedAt.  Whatever the stored rows and whatever string
`newStatus` is, the call succeeds when the store reports no failure, and a
successful call replaces every row with identifier `id` by the same row with
Status `newStatus` and LastModifiedAt the clock reading of the call (ID, UserID,
Amount, Currency and CreatedAt as before) and leaves all other rows, their
order, and the refunds relation unchanged. -/
theorem UpdateTransactionStatus_overwrites (env : Env) (f : Faults) (w : World)
    (id newStatus : String) :
    (f = Faults.none → (UpdateTransactionStatus env f w id newStatus).1 = .ok ()) ∧
    ∀ w1, UpdateTransactionStatus env f w id newStatus = (.ok (), w1) →
      w1.db.transactions = w.db.transactions.map (fun r =>
        if r.ID = id then
          { ID := r.ID, UserID := r.UserID, Amount := r.Amount, Currency := r.Currency,
            Status := newStatus, CreatedAt := r.CreatedAt,
            LastModifiedAt := env.now w.clockReads }
        else r) ∧
      w1.db.refunds = w.db.refunds := by
  constructor
  · intro hf
    have hok : UpdateTransactionStatus env f w id newStatus = (.ok (), _) :=
      UpdateTransactionStatus_ok_iff.mpr ⟨hf, rfl⟩
    rw [hok]
  · intro w1 h
    obtain ⟨_, rfl⟩ := UpdateTransactionStatus_ok_iff.mp h
    exact ⟨rfl, rfl⟩

/-- C8, at a concrete input: an already `COMPLETED` row is overwritten with a
status outside the four named ones. -/
theorem UpdateTransactionStatus_overwrites_witness :
    (UpdateTransactionStatus sampleEnv Faults.none completedWorld "id-0" "ON_HOLD").1 = .ok () ∧
      (UpdateTransactionStatus sampleEnv Faults.none completedWorld "id-0" "ON_HOLD").2.db.transactions
        = [⟨"id-0", "user123", 100, "USD", "ON_HOLD", 1000, 1003⟩] :=
  ⟨(UpdateTransactionStatus_overwrites sampleEnv Faults.none completedWorld "id-0" "ON_HOLD").1 rfl,
    ((UpdateTransactionStatus_overwrites sampleEnv Faults.none completedWorld "id-0" "ON_HOLD").2
      _ rfl).1⟩

/-- C9, as stated, fails: on a stored transaction that is already `COMPLETED`,
`UpdateTransactionStatus` with a new status returns no error at all (so no
IllegalTransition) and the stored Status is replaced. -/
theorem terminal_status_is_overwritten :
    runCalls sampleEnv World.empty
        [(.CreateTransaction "user123" 100 "USD", Faults.none),
         (.UpdateTransactionStatus "id-0" "COMPLETED", Faults.none)] = completedWorld ∧
      GetTransaction completedWorld.db none "id-0" =
        .ok ⟨"id-0", "user123", 100, "USD", "COMPLETED", 1000, 1002⟩ ∧
      (UpdateTransactionStatus sampleEnv Faults.none completedWorld "id-0" "PENDING").1
        = .ok () ∧
      GetTransaction
          (UpdateTransactionStatus sampleEnv Faults.none completedWorld "id-0" "PENDING").2.db
          none "id-0" =
        .ok ⟨"id-0", "user123", 100, "USD", "PENDING", 1000, 1003⟩ :=
  ⟨rfl, rfl, rfl, rfl⟩

theorem UpdateTransactionStatus_error_cases {env : Env} {f : Faults} {w : World}
    {transactionID status : String} {e : GoError}
    (h : (UpdateTransactionStatus env f w transactionID status).1 = .error e) :
    (∃ m, f.onBegin = some m ∧ e = "failed to begin transaction: " ++ m) ∨
    (∃ m, f.onExec = some m ∧ e = "failed to update transaction status: " ++ m) ∨
    (∃ m, f.onCommit = some m ∧ e = "failed to commit transaction: " ++ m) := by
  obtain ⟨fb, fe, fc⟩ := f
  cases fb <;> cases fe <;> cases fc <;>
    simp [UpdateTransactionStatus, DB.Begin, Tx.Exec, Stmt.asStored, Tx.Commit, Tx.Rollback, timeNow,
      Stmt.apply, SqlError.Error] at h ⊢ <;>
    simp [h]

/-- C9, amended: no state machine is enforced.  For a stored transaction whose
Status is `COMPLETED`, `FAILED` or `CANCELLED` and any `newStatus`,
`UpdateTransactionStatus` returns no error whenever the store reports none, and
the transaction then has Status `newStatus` and the call's clock reading as
LastModifiedAt.  It returns an error only when begin, the statement or the
commit failed at the store, the error being that failure wrapped with the
operation context, and the transaction is then unchanged. -/
theorem UpdateTransactionStatus_on_terminal (env : Env) (f : Faults) (w : World)
    (id newStatus : String) (r : Transaction)
    (hstored : w.db.transactions.find? (fun x => x.ID = id) = some r)
    (hterminal : r.Status = "COMPLETED" ∨ r.Status = "FAILED" ∨ r.Status = "CANCELLED") :
    r.Status ≠ "PENDING" ∧
    (f = Faults.none →
      (UpdateTransactionStatus env f w id newStatus).1 = .ok () ∧
      GetTransaction (UpdateTransactionStatus env f w id newStatus).2.db none id =
        .ok { r with Status := newStatus, LastModifiedAt := env.now w.clockReads }) ∧
    (∀ e, (UpdateTransactionStatus env f w id newStatus).1 = .error e →
      ((∃ m, f.onBegin = some m ∧ e = "failed to begin transaction: " ++ m) ∨
       (∃ m, f.onExec = some m ∧ e = "failed to update transaction status: " ++ m) ∨
       (∃ m, f.onCommit = some m ∧ e = "failed to commit transaction: " ++ m)) ∧
      GetTransaction (UpdateTransactionStatus env f w id newStatus).2.db none id = .ok r) := by
  refine ⟨?_, ?_, ?_⟩
  · rcases hterminal with h | h | h <;> rw [h] <;> decide
  · intro hf
    have hok : UpdateTransactionStatus env f w id newStatus = (.ok (), _) :=
      UpdateTransactionStatus_ok_iff.mpr ⟨hf, rfl⟩
    rw [hok]
    exact ⟨rfl, GetTransaction_of_find? (find?_map_withStatus hstored)⟩
  · intro e he
    refine ⟨UpdateTransactionStatus_error_cases he, ?_⟩
    rw [UpdateTransactionStatus_error_db he]
    exact GetTransaction_of_find? hstored

/-- C9 amended, at a concrete input: the `COMPLETED` transaction `id-0` is set
to `FAILED`. -/
theorem UpdateTransactionStatus_on_terminal_witness :
    (UpdateTransactionStatus sampleEnv Faults.none completedWorld "id-0" "FAILED").1 = .ok () ∧
      GetTransaction
          (UpdateTransactionStatus sampleEnv Faults.none completedWorld "id-0" "FAILED").2.db
          none "id-0" =
        .ok ⟨"id-0", "user123", 100, "USD", "FAILED", 1000, 1003⟩ :=
  (UpdateTransactionStatus_on_terminal sampleEnv Faults.none completedWorld "id-0" "FAILED"
    ⟨"id-0", "user123", 100, "USD", "COMPLETED", 1000, 1002⟩ rfl (Or.inl rfl)).2.1 rfl

/-! ## Timestamps along a run -/

theorem CreateTransaction_clockReads_le (env : Env) (f : Faults) (w : World) (userID : String)
    (amount : Float64) (currency : String) :
    w.clockReads ≤ (CreateTransaction env f w userID amount currency).2.clockReads := by
  obtain ⟨fb, fe, fc⟩ := f
  cases fb <;> cases fe <;> cases fc <;>
    simp only [CreateTransaction, DB.Begin, Tx.Exec, Stmt.asStored, Tx.Commit, Tx.Rollback,
      generateUUID, timeNow, le_refl]
  all_goals first
    | omega
    | (generalize Stmt.apply _ _ _ = res; cases res <;> simp only [] <;> omega)

theorem CreateRefund_clockReads_le (env : Env) (f : Faults) (w : World)
    (transactionID userID : String) (amount : Float64) :
    w.clockReads ≤ (CreateRefund env f w transactionID userID amount).2.clockReads := by
  obtain ⟨fb, fe, fc⟩ := f
  cases fb <;> cases fe <;> cases fc <;>
    simp only [CreateRefund, DB.Begin, Tx.Exec, Stmt.asStored, Tx.Commit, Tx.Rollback,
      generateUUID, timeNow, le_refl]
  all_goals first
    | omega
    | (generalize Stmt.apply _ _ _ = res; cases res <;> simp only [] <;> omega)

theorem UpdateTransactionStatus_clockReads_le (env : Env) (f : Faults) (w : World)
    (transactionID status : String) :
    w.clockReads ≤ (UpdateTransactionStatus env f w transactionID status).2.clockReads := by
  obtain ⟨fb, fe, fc⟩ := f
  cases fb <;> cases fe <;> cases fc <;>
    simp [UpdateTransactionStatus, DB.Begin, Tx.Exec, Stmt.asStored, Tx.Commit, Tx.Rollback, timeNow,
      Stmt.apply]

theorem UpdateRefundStatus_clockReads_le (env : Env) (f : Faults) (w : World)
    (refundID status : String) :
    w.clockReads ≤ (UpdateRefundStatus env f w refundID status).2.clockReads := by
  obtain ⟨fb, fe, fc⟩ := f
  cases fb <;> cases fe <;> cases fc <;>
    simp [UpdateRefundStatus, DB.Begin, Tx.Exec, Stmt.asStored, Tx.Commit, Tx.Rollback, timeNow,
      Stmt.apply]

theorem DeleteTransaction_clockReads_le (env : Env) (f : Faults) (w : World)
    (transactionID : String) :
    w.clockReads ≤ (DeleteTransaction env f w transactionID).2.clockReads := by
  obtain ⟨fb, fe, fc⟩ := f
  cases fb <;> cases fe <;> cases fc <;>
    simp only [DeleteTransaction, DB.Begin, Tx.Exec, Stmt.asStored, Tx.Commit, Tx.Rollback, le_refl]
  all_goals first
    | omega
    | (generalize Stmt.apply _ _ _ = res; cases res <;> simp only [] <;> omega)

theorem DeleteRefund_clockReads_le (env : Env) (f : Faults) (w : World) (refundID : String) :
    w.clockReads ≤ (DeleteRefund env f w refundID).2.clockReads := by
  obtain ⟨fb, fe, fc⟩ := f
  cases fb <;> cases fe <;> cases fc <;>
    simp [DeleteRefund, DB.Begin, Tx.Exec, Stmt.asStored, Tx.Commit, Tx.Rollback, Stmt.apply]

theorem TimesBounded_of_same_db {env : Env} (hmono : Monotone env.now) {w w1 : World}
    (hinv : w.TimesBounded env) (hdb : w1.db = w.db) (hclock : w.clockReads ≤ w1.clockReads) :
    w1.TimesBounded env := by
  have hnow := hmono hclock
  constructor
  · intro t ht
    rw [hdb] at ht
    exact ⟨(hinv.1 t ht).1, le_trans (hinv.1 t ht).2 hnow⟩
  · intro r hr
    rw [hdb] at hr
    exact ⟨(hinv.2 r hr).1, le_trans (hinv.2 r hr).2 hnow⟩

theorem result_cases {α : Type} (r : Except GoError α × World) :
    (∃ e, r.1 = .error e) ∨ ∃ a, r = (.ok a, r.2) := by
  obtain ⟨res, w1⟩ := r
  cases res with
  | error e => exact Or.inl ⟨e, rfl⟩
  | ok a => exact Or.inr ⟨a, rfl⟩

theorem TimesBounded_insertTransaction {env : Env} (hmono : Monotone env.now) {w : World}
    (hinv : w.TimesBounded env) (userID : String) (amount : Float64) (currency : String)
    (u : Nat) :
    World.TimesBounded env
      ⟨{ w.db with transactions :=
          w.db.transactions ++
            [(newTransaction env w userID amount currency).asStored env.storeTime] },
        u, w.clockReads + 2⟩ := by
  have h01 : env.now w.clockReads ≤ env.now (w.clockReads + 1) := hmono (by omega)
  have h02 : env.now w.clockReads ≤ env.now (w.clockReads + 2) := hmono (by omega)
  constructor
  · intro t ht
    simp only [List.mem_append, List.mem_singleton] at ht
    rcases ht with ht | rfl
    · exact ⟨(hinv.1 t ht).1, le_trans (hinv.1 t ht).2 h02⟩
    · exact ⟨h01, h02⟩
  · intro r hr
    exact ⟨(hinv.2 r hr).1, le_trans (hinv.2 r hr).2 h02⟩

theorem TimesBounded_insertRefund {env : Env} (hmono : Monotone env.now) {w : World}
    (hinv : w.TimesBounded env) (transactionID userID : String) (amount : Float64) (u : Nat) :
    World.TimesBounded env
      ⟨{ w.db with refunds :=
          w.db.refunds ++
            [(newRefund env w transactionID userID amount).asStored env.storeTime] },
        u, w.clockReads + 2⟩ := by
  have h01 : env.now w.clockReads ≤ env.now (w.clockReads + 1) := hmono (by omega)
  have h02 : env.now w.clockReads ≤ env.now (w.clockReads + 2) := hmono (by omega)
  constructor
  · intro t ht
    exact ⟨(hinv.1 t ht).1, le_trans (hinv.1 t ht).2 h02⟩
  · intro r hr
    simp only [List.mem_append, List.mem_singleton] at hr
    rcases hr with hr | rfl
    · exact ⟨(hinv.2 r hr).1, le_trans (hinv.2 r hr).2 h02⟩
    · exact ⟨h01, h02⟩

theorem TimesBounded_updateTransaction {env : Env} (hmono : Monotone env.now) {w : World}
    (hinv : w.TimesBounded env) (id status : String) (u : Nat) :
    World.TimesBounded env
      ⟨{ w.db with transactions := w.db.transactions.map fun r =>
            if r.ID = id then
              { r with Status := status, LastModifiedAt := env.now w.clockReads }
            else r },
        u, w.clockReads + 1⟩ := by
  have h01 : env.now w.clockReads ≤ env.now (w.clockReads + 1) := hmono (by omega)
  constructor
  · intro t ht
    simp only [List.mem_map] at ht
    obtain ⟨x, hx, rfl⟩ := ht
    by_cases hid : x.ID = id
    · simp only [hid, if_true]
      exact ⟨(hinv.1 x hx).2, le_trans (hinv.1 x hx).2 h01⟩
    · simp only [hid, if_false]
      exact ⟨(hinv.1 x hx).1, le_trans (hinv.1 x hx).2 h01⟩
  · intro r hr
    exact ⟨(hinv.2 r hr).1, le_trans (hinv.2 r hr).2 h01⟩

theorem TimesBounded_updateRefund {env : Env} (hmono : Monotone env.now) {w : World}
    (hinv : w.TimesBounded env) (id status : String) (u : Nat) :
    World.TimesBounded env
      ⟨{ w.db with refunds := w.db.refunds.map fun r =>
            if r.ID = id then
              { r with Status := status, LastModifiedAt := env.now w.clockReads }
            else r },
        u, w.clockReads + 1⟩ := by
  have h01 : env.now w.clockReads ≤ env.now (w.clockReads + 1) := hmono (by omega)
  constructor
  · intro t ht
    exact ⟨(hinv.1 t ht).1, le_trans (hinv.1 t ht).2 h01⟩
  · intro r hr
    simp only [List.mem_map] at hr
    obtain ⟨x, hx, rfl⟩ := hr
    by_cases hid : x.ID = id
    · simp only [hid, if_true]
      exact ⟨(hinv.2 x hx).2, le_trans (hinv.2 x hx).2 h01⟩
    · simp only [hid, if_false]
      exact ⟨(hinv.2 x hx).1, le_trans (hinv.2 x hx).2 h01⟩

theorem TimesBounded_deleteTransaction {env : Env} {w : World}
    (hinv : w.TimesBounded env) (id : String) :
    World.TimesBounded env
      { w with db := { w.db with transactions := w.db.transactions.filter fun r => r.ID ≠ id } } :=
  ⟨fun t ht => hinv.1 t (List.mem_of_mem_filter ht), hinv.2⟩

theorem TimesBounded_deleteRefund {env : Env} {w : World}
    (hinv : w.TimesBounded env) (id : String) :
    World.TimesBounded env
      { w with db := { w.db with refunds := w.db.refunds.filter fun r => r.ID ≠ id } } :=
  ⟨hinv.1, fun r hr => hinv.2 r (List.mem_of_mem_filter hr)⟩

theorem callRun_TimesBounded {env : Env} (hmono : Monotone env.now) (f : Faults) (w : World)
    (c : Call) (hinv : w.TimesBounded env) : (c.run env f w).2.TimesBounded env := by
  cases c with
  | CreateTransaction userID amount currency =>
    show (CreateTransaction env f w userID amount currency).2.TimesBounded env
    rcases result_cases (CreateTransaction env f w userID amount currency) with ⟨e, he⟩ | ⟨t, ht⟩
    · exact TimesBounded_of_same_db hmono hinv (CreateTransaction_error_db he)
        (CreateTransaction_clockReads_le env f w userID amount currency)
    · obtain ⟨_, rfl, db1, hA, hw⟩ := CreateTransaction_ok_iff.mp ht
      rw [hw, (apply_insertTransaction_ok hA).2]
      exact TimesBounded_insertTransaction hmono hinv userID amount currency _
  | UpdateTransactionStatus transactionID status =>
    show (UpdateTransactionStatus env f w transactionID status).2.TimesBounded env
    rcases result_cases (UpdateTransactionStatus env f w transactionID status) with
      ⟨e, he⟩ | ⟨t, ht⟩
    · exact TimesBounded_of_same_db hmono hinv (UpdateTransactionStatus_error_db he)
        (UpdateTransactionStatus_clockReads_le env f w transactionID status)
    · obtain ⟨_, hw⟩ := UpdateTransactionStatus_ok_iff.mp ht
      rw [hw]
      exact TimesBounded_updateTransaction hmono hinv transactionID status _
  | DeleteTransaction transactionID =>
    show (DeleteTransaction env f w transactionID).2.TimesBounded env
    rcases result_cases (DeleteTransaction env f w transactionID) with ⟨e, he⟩ | ⟨t, ht⟩
    · exact TimesBounded_of_same_db hmono hinv (DeleteTransaction_error_db he)
        (DeleteTransaction_clockReads_le env f w transactionID)
    · obtain ⟨_, db1, hA, hw⟩ := DeleteTransaction_ok_iff.mp ht
      rw [hw, apply_deleteTransaction_ok hA]
      exact TimesBounded_deleteTransaction hinv transactionID
  | CreateRefund transactionID userID amount =>
    show (CreateRefund env f w transactionID userID amount).2.TimesBounded env
    rcases result_cases (CreateRefund env f w transactionID userID amount) with ⟨e, he⟩ | ⟨t, ht⟩
    · exact TimesBounded_of_same_db hmono hinv (CreateRefund_error_db he)
        (CreateRefund_clockReads_le env f w transactionID userID amount)
    · obtain ⟨_, rfl, db1, hA, hw⟩ := CreateRefund_ok_iff.mp ht
      rw [hw, (apply_insertRefund_ok hA).2]
      exact TimesBounded_insertRefund hmono hinv transactionID userID amount _
  | UpdateRefundStatus refundID status =>
    show (UpdateRefundStatus env f w refundID status).2.TimesBounded env
    rcases result_cases (UpdateRefundStatus env f w refundID status) with ⟨e, he⟩ | ⟨t, ht⟩
    · exact TimesBounded_of_same_db hmono hinv (UpdateRefundStatus_error_db he)
        (UpdateRefundStatus_clockReads_le env f w refundID status)
    · obtain ⟨_, hw⟩ := UpdateRefundStatus_ok_iff.mp ht
      rw [hw]
      exact TimesBounded_updateRefund hmono hinv refundID status _
  | DeleteRefund refundID =>
    show (DeleteRefund env f w refundID).2.TimesBounded env
    rcases result_cases (DeleteRefund env f w refundID) with ⟨e, he⟩ | ⟨t, ht⟩
    · exact TimesBounded_of_same_db hmono hinv (DeleteRefund_error_db he)
        (DeleteRefund_clockReads_le env f w refundID)
    · obtain ⟨_, hw⟩ := DeleteRefund_ok_iff.mp ht
      rw [hw]
      exact TimesBounded_deleteRefund hinv refundID

theorem runCalls_TimesBounded {env : Env} (hmono : Monotone env.now)
    (calls : List (Call × Faults)) (w : World) (hinv : w.TimesBounded env) :
    (runCalls env w calls).TimesBounded env := by
  induction calls generalizing w with
  | nil => exact hinv
  | cons cf rest ih =>
    obtain ⟨c, f⟩ := cf
    exact ih _ (callRun_TimesBounded hmono f w c hinv)

/-- C10, as stated, fails: when the wall clock is set back between the creation
and a later status update, the run leaves a stored transaction whose
LastModifiedAt (902) is earlier than its CreatedAt (1000). -/
theorem lastModified_before_created_after_clock_step :
    (runCalls steppedBackEnv World.empty
        [(.CreateTransaction "user123" 100 "USD", Faults.none),
         (.UpdateTransactionStatus "id-0" "COMPLETED", Faults.none)]).db.transactions
        = [⟨"id-0", "user123", 100, "USD", "COMPLETED", 1000, 902⟩] ∧
      ¬ (runCalls steppedBackEnv World.empty
        [(.CreateTransaction "user123" 100 "USD", Faults.none),
         (.UpdateTransactionStatus "id-0" "COMPLETED", Faults.none)]).db.TimesOrdered := by
  have hrun : (runCalls steppedBackEnv World.empty
        [(.CreateTransaction "user123" 100 "USD", Faults.none),
         (.UpdateTransactionStatus "id-0" "COMPLETED", Faults.none)]).db.transactions
        = [⟨"id-0", "user123", 100, "USD", "COMPLETED", 1000, 902⟩] := rfl
  refine ⟨hrun, ?_⟩
  intro h
  have h1 := h.1 ⟨"id-0", "user123", 100, "USD", "COMPLETED", 1000, 902⟩
    (by rw [hrun]; exact List.mem_singleton.mpr rfl)
  exact absurd h1 (by decide)

/-- C10, amended: provided the clock readings, as written to the store, never
decrease, in every state
reached from an empty store by any sequence of `CreateTransaction`,
`UpdateTransactionStatus`, `DeleteTransaction`, `CreateRefund`,
`UpdateRefundStatus` and `DeleteRefund` calls, whether they succeed or fail,
every stored transaction and every stored refund has LastModifiedAt greater
than or equal to CreatedAt. -/
theorem TimesOrdered_of_monotone_clock (env : Env) (hmono : Monotone env.now)
    (calls : List (Call × Faults)) (uuidCalls clockReads : Nat) :
    (runCalls env ⟨DB.empty, uuidCalls, clockReads⟩ calls).db.TimesOrdered := by
  have hinit : World.TimesBounded env ⟨DB.empty, uuidCalls, clockReads⟩ :=
    ⟨fun t ht => absurd ht (List.not_mem_nil t), fun r hr => absurd hr (List.not_mem_nil r)⟩
  have hfin := runCalls_TimesBounded hmono calls _ hinit
  exact ⟨fun t ht => (hfin.1 t ht).1, fun r hr => (hfin.2 r hr).1⟩

/-- C10 amended, at a concrete input: a transaction and a refund are created
and updated, one of the calls failing at commit, under the advancing clock of
`sampleEnv`. -/
theorem TimesOrdered_of_monotone_clock_witness :
    Monotone sampleEnv.now ∧
      (runCalls sampleEnv ⟨DB.empty, 0, 0⟩
        [(.CreateTransaction "user123" 100 "USD", Faults.none),
         (.CreateRefund "id-0" "user123" 40, Faults.none),
         (.UpdateTransactionStatus "id-0" "FAILED", ⟨none, none, some "driver: bad connection"⟩),
         (.UpdateTransactionStatus "id-0" "COMPLETED", Faults.none),
         (.UpdateRefundStatus "id-1" "APPROVED", Faults.none)]).db.TimesOrdered :=
  have hmono : Monotone sampleEnv.now := fun _ _ hab => Nat.add_le_add_left hab 1000
  ⟨hmono, TimesOrdered_of_monotone_clock sampleEnv hmono _ 0 0⟩

/-! ## Mutations on an identifier no row carries -/

theorem map_update_of_missing_transaction {rows : List Transaction} {id status : String}
    {now : Time} (h : ∀ r ∈ rows, r.ID ≠ id) :
    (rows.map fun r =>
      if r.ID = id then { r with Status := status, LastModifiedAt := now } else r) = rows := by
  induction rows with
  | nil => rfl
  | cons x rows ih =>
    have hx : x.ID ≠ id := h x (List.mem_cons_self _ _)
    have hrest : ∀ r ∈ rows, r.ID ≠ id := fun r hr => h r (List.mem_cons_of_mem _ hr)
    simp only [List.map_cons, if_neg hx, ih hrest]

theorem map_update_of_missing_refund {rows : List Refund} {id status : String}
    {now : Time} (h : ∀ r ∈ rows, r.ID ≠ id) :
    (rows.map fun r =>
      if r.ID = id then { r with Status := status, LastModifiedAt := now } else r) = rows := by
  induction rows with
  | nil => rfl
  | cons x rows ih =>
    have hx : x.ID ≠ id := h x (List.mem_cons_self _ _)
    have hrest : ∀ r ∈ rows, r.ID ≠ id := fun r hr => h r (List.mem_cons_of_mem _ hr)
    simp only [List.map_cons, if_neg hx, ih hrest]

theorem filter_of_missing_transaction {rows : List Transaction} {id : String}
    (h : ∀ r ∈ rows, r.ID ≠ id) : (rows.filter fun r => r.ID ≠ id) = rows := by
  rw [List.filter_eq_self]
  intro r hr
  simpa using h r hr

theorem filter_of_missing_refund {rows : List Refund} {id : String}
    (h : ∀ r ∈ rows, r.ID ≠ id) : (rows.filter fun r => r.ID ≠ id) = rows := by
  rw [List.filter_eq_self]
  intro r hr
  simpa using h r hr

theorem apply_deleteTransaction_of_missing {fk : Bool} {db : DB} {id : String}
    (h : ∀ r ∈ db.transactions, r.ID ≠ id) :
    Stmt.apply fk db (.deleteTransaction id) = .ok db := by
  simp only [Stmt.apply]
  rw [if_neg]
  · rw [filter_of_missing_transaction h]
  · rintro ⟨_, ⟨r, hr, hid⟩, _⟩
    exact h r hr hid

theorem fst_ok_iff (r : Except GoError Unit × World) : r.1 = .ok () ↔ r = (.ok (), r.2) := by
  obtain ⟨res, w1⟩ := r
  constructor
  · intro h
    simp only at h
    rw [h]
  · intro h
    rw [h]

theorem UpdateTransactionStatus_of_missing {env : Env} {f : Faults} {w : World}
    {id status : String} (h : ∀ r ∈ w.db.transactions, r.ID ≠ id) :
    (UpdateTransactionStatus env f w id status).2.db = w.db ∧
      ((UpdateTransactionStatus env f w id status).1 = .ok () ↔ f = Faults.none) := by
  refine ⟨?_, fun h1 => (UpdateTransactionStatus_ok_iff.mp ((fst_ok_iff _).mp h1)).1, fun hf => ?_⟩
  · rcases result_cases (UpdateTransactionStatus env f w id status) with ⟨e, he⟩ | ⟨u, hu⟩
    · exact UpdateTransactionStatus_error_db he
    · obtain ⟨_, hw⟩ := UpdateTransactionStatus_ok_iff.mp hu
      rw [hw]
      simp only [map_update_of_missing_transaction h]
  · have hok : UpdateTransactionStatus env f w id status = (.ok (), _) :=
      UpdateTransactionStatus_ok_iff.mpr ⟨hf, rfl⟩
    rw [hok]

theorem UpdateRefundStatus_of_missing {env : Env} {f : Faults} {w : World}
    {id status : String} (h : ∀ r ∈ w.db.refunds, r.ID ≠ id) :
    (UpdateRefundStatus env f w id status).2.db = w.db ∧
      ((UpdateRefundStatus env f w id status).1 = .ok () ↔ f = Faults.none) := by
  refine ⟨?_, fun h1 => (UpdateRefundStatus_ok_iff.mp ((fst_ok_iff _).mp h1)).1, fun hf => ?_⟩
  · rcases result_cases (UpdateRefundStatus env f w id status) with ⟨e, he⟩ | ⟨u, hu⟩
    · exact UpdateRefundStatus_error_db he
    · obtain ⟨_, hw⟩ := UpdateRefundStatus_ok_iff.mp hu
      rw [hw]
      simp only [map_update_of_missing_refund h]
  · have hok : UpdateRefundStatus env f w id status = (.ok (), _) :=
      UpdateRefundStatus_ok_iff.mpr ⟨hf, rfl⟩
    rw [hok]

theorem DeleteTransaction_of_missing {env : Env} {f : Faults} {w : World} {id : String}
    (h : ∀ r ∈ w.db.transactions, r.ID ≠ id) :
    (DeleteTransaction env f w id).2.db = w.db ∧
      ((DeleteTransaction env f w id).1 = .ok () ↔ f = Faults.none) := by
  refine ⟨?_, fun h1 => (DeleteTransaction_ok_iff.mp ((fst_ok_iff _).mp h1)).1, fun hf => ?_⟩
  · rcases result_cases (DeleteTransaction env f w id) with ⟨e, he⟩ | ⟨u, hu⟩
    · exact DeleteTransaction_error_db he
    · obtain ⟨_, db1, hA, hw⟩ := DeleteTransaction_ok_iff.mp hu
      rw [hw, apply_deleteTransaction_ok hA]
      simp only [filter_of_missing_transaction h]
  · have hok : DeleteTransaction env f w id = (.ok (), { w with db := w.db }) :=
      DeleteTransaction_ok_iff.mpr ⟨hf, w.db, apply_deleteTransaction_of_missing h, rfl⟩
    rw [hok]

theorem DeleteRefund_of_missing {env : Env} {f : Faults} {w : World} {id : String}
    (h : ∀ r ∈ w.db.refunds, r.ID ≠ id) :
    (DeleteRefund env f w id).2.db = w.db ∧
      ((DeleteRefund env f w id).1 = .ok () ↔ f = Faults.none) := by
  refine ⟨?_, fun h1 => (DeleteRefund_ok_iff.mp ((fst_ok_iff _).mp h1)).1, fun hf => ?_⟩
  · rcases result_cases (DeleteRefund env f w id) with ⟨e, he⟩ | ⟨u, hu⟩
    · exact DeleteRefund_error_db he
    · obtain ⟨_, hw⟩ := DeleteRefund_ok_iff.mp hu
      rw [hw]
      simp only [filter_of_missing_refund h]
  · have hok : DeleteRefund env f w id = (.ok (), _) := DeleteRefund_ok_iff.mpr ⟨hf, rfl⟩
    rw [hok]

theorem DeleteTransaction_twice {env : Env} {f : Faults} {w w1 : World} {id : String}
    (h : DeleteTransaction env f w id = (.ok (), w1)) :
    DeleteTransaction env Faults.none w1 id = (.ok (), w1) := by
  obtain ⟨_, db1, hA, rfl⟩ := DeleteTransaction_ok_iff.mp h
  have hmiss : ∀ r ∈ db1.transactions, r.ID ≠ id := by
    rw [apply_deleteTransaction_ok hA]
    intro r hr
    simpa using (List.mem_filter.mp hr).2
  exact DeleteTransaction_ok_iff.mpr ⟨rfl, db1, apply_deleteTransaction_of_missing hmiss, rfl⟩

theorem DeleteRefund_twice {env : Env} {f : Faults} {w w1 : World} {id : String}
    (h : DeleteRefund env f w id = (.ok (), w1)) :
    DeleteRefund env Faults.none w1 id = (.ok (), w1) := by
  obtain ⟨_, rfl⟩ := DeleteRefund_ok_iff.mp h
  refine DeleteRefund_ok_iff.mpr ⟨rfl, ?_⟩
  simp only [List.filter_filter, Bool.and_self]

/-- C11: mutations on a missing identifier succeed silently.  When no stored
transaction (respectively refund) carries `id`, `UpdateTransactionStatus` and
`DeleteTransaction` (respectively `UpdateRefundStatus` and `DeleteRefund`) leave
the store unchanged and return no error exactly when the store reports no
failure, so a missing row never produces an error of its own.  Delete is
idempotent: after a successful delete of `id`, a second delete of the same `id`
returns no error and leaves the state of the first. -/
theorem mutations_on_missing_id_succeed_silently (env : Env) (f : Faults) (w : World)
    (id status : String) :
    ((∀ r ∈ w.db.transactions, r.ID ≠ id) →
      ((UpdateTransactionStatus env f w id status).2.db = w.db ∧
        ((UpdateTransactionStatus env f w id status).1 = .ok () ↔ f = Faults.none)) ∧
      ((DeleteTransaction env f w id).2.db = w.db ∧
        ((DeleteTransaction env f w id).1 = .ok () ↔ f = Faults.none))) ∧
    ((∀ r ∈ w.db.refunds, r.ID ≠ id) →
      ((UpdateRefundStatus env f w id status).2.db = w.db ∧
        ((UpdateRefundStatus env f w id status).1 = .ok () ↔ f = Faults.none)) ∧
      ((DeleteRefund env f w id).2.db = w.db ∧
        ((DeleteRefund env f w id).1 = .ok () ↔ f = Faults.none))) ∧
    (∀ w1, DeleteTransaction env f w id = (.ok (), w1) →
      DeleteTransaction env Faults.none w1 id = (.ok (), w1)) ∧
    (∀ w1, DeleteRefund env f w id = (.ok (), w1) →
      DeleteRefund env Faults.none w1 id = (.ok (), w1)) :=
  ⟨fun h => ⟨UpdateTransactionStatus_of_missing h, DeleteTransaction_of_missing h⟩,
    fun h => ⟨UpdateRefundStatus_of_missing h, DeleteRefund_of_missing h⟩,
    fun _ h => DeleteTransaction_twice h,
    fun _ h => DeleteRefund_twice h⟩

/-- C11, at a concrete input: `no-such-id` is updated and deleted in a store
that holds a transaction and three refunds, none of them with that identifier,
and the stored transaction `id-0` is deleted twice. -/
theorem mutations_on_missing_id_succeed_silently_witness :
    (∀ r ∈ populatedWorld.db.transactions, r.ID ≠ "no-such-id") ∧
    (∀ r ∈ populatedWorld.db.refunds, r.ID ≠ "no-such-id") ∧
    (UpdateTransactionStatus sampleEnv Faults.none populatedWorld "no-such-id" "COMPLETED").1
      = .ok () ∧
    (UpdateTransactionStatus sampleEnv Faults.none populatedWorld "no-such-id" "COMPLETED").2.db
      = populatedWorld.db ∧
    (DeleteTransaction sampleEnv Faults.none populatedWorld "no-such-id").1 = .ok () ∧
    (DeleteTransaction sampleEnv Faults.none populatedWorld "no-such-id").2.db
      = populatedWorld.db ∧
    (UpdateRefundStatus sampleEnv Faults.none populatedWorld "no-such-id" "COMPLETED").1
      = .ok () ∧
    (UpdateRefundStatus sampleEnv Faults.none populatedWorld "no-such-id" "COMPLETED").2.db
      = populatedWorld.db ∧
    (DeleteRefund sampleEnv Faults.none populatedWorld "no-such-id").1 = .ok () ∧
    (DeleteRefund sampleEnv Faults.none populatedWorld "no-such-id").2.db
      = populatedWorld.db ∧
    DeleteTransaction sampleEnv Faults.none populatedWorld "id-0"
      = (.ok (), ⟨⟨[], sampleRefundsDB.refunds⟩, 4, 8⟩) ∧
    DeleteTransaction sampleEnv Faults.none ⟨⟨[], sampleRefundsDB.refunds⟩, 4, 8⟩ "id-0"
      = (.ok (), ⟨⟨[], sampleRefundsDB.refunds⟩, 4, 8⟩) :=
  have hT : ∀ r ∈ populatedWorld.db.transactions, r.ID ≠ "no-such-id" := by decide
  have hR : ∀ r ∈ populatedWorld.db.refunds, r.ID ≠ "no-such-id" := by decide
  have hU := (mutations_on_missing_id_succeed_silently sampleEnv Faults.none populatedWorld
    "no-such-id" "COMPLETED").1 hT
  have hV := (mutations_on_missing_id_succeed_silently sampleEnv Faults.none populatedWorld
    "no-such-id" "COMPLETED").2.1 hR
  have hD : DeleteTransaction sampleEnv Faults.none populatedWorld "id-0"
      = (.ok (), ⟨⟨[], sampleRefundsDB.refunds⟩, 4, 8⟩) := rfl
  ⟨hT, hR, hU.1.2.mpr rfl, hU.1.1, hU.2.2.mpr rfl, hU.2.1,
    hV.1.2.mpr rfl, hV.1.1, hV.2.2.mpr rfl, hV.2.1, hD,
    (mutations_on_missing_id_succeed_silently sampleEnv Faults.none populatedWorld
      "id-0" "COMPLETED").2.2.1 _ hD⟩

end TransactionManagement
